import Mathlib

/-
  Verification of the grid-construction and partial-cell geometry subsystem of
  the mitgcm_python repository (src/utils.py, src/grid.py, src/constants.py).

  numpy arrays are embedded as nested lists of rationals: a 2D array of shape
  (ny, nx) is a list of ny rows, each a list of nx entries; a 3D array of shape
  (nz, ny, nx) is a list of nz such 2D slices.  Elementwise numpy operations
  become nested zipWith maps, and masked assignment a[index] = v becomes a
  pointwise conditional update.  Machine floats are modelled by exact rationals.
-/

namespace MitgcmPython

abbrev Arr2 (α : Type) := List (List α)
abbrev Arr3 (α : Type) := List (List (List α))

/-- Ternary zipper on lists, truncating to the shortest argument. -/
def zipWith3L (f : α → β → γ → δ) : List α → List β → List γ → List δ
  | a :: as, b :: bs, c :: cs => f a b c :: zipWith3L f as bs cs
  | _, _, _ => []

/-- Elementwise map on a 2D array. -/
def amap2 (f : α → β) (a : Arr2 α) : Arr2 β := a.map (List.map f)

/-- Elementwise map on a 3D array. -/
def amap3 (f : α → β) (a : Arr3 α) : Arr3 β := a.map (amap2 f)

/-- Elementwise binary operation on 2D arrays. -/
def azip2 (f : α → β → γ) (a : Arr2 α) (b : Arr2 β) : Arr2 γ :=
  List.zipWith (List.zipWith f) a b

/-- Elementwise binary operation on 3D arrays. -/
def azip3 (f : α → β → γ) (a : Arr3 α) (b : Arr3 β) : Arr3 γ :=
  List.zipWith (azip2 f) a b

/-- Elementwise ternary operation on 3D arrays. -/
def azip3w (f : α → β → γ → δ) (a : Arr3 α) (b : Arr3 β) (c : Arr3 γ) : Arr3 δ :=
  zipWith3L (zipWith3L (zipWith3L f)) a b c

/-- Entry of a 2D array at row j, column i, as an Option. -/
def o2 (a : Arr2 α) (j i : ℕ) : Option α :=
  a[j]?.bind (fun r => r[i]?)

/-- Entry of a 3D array at slice k, row j, column i, as an Option. -/
def o3 (a : Arr3 α) (k j i : ℕ) : Option α :=
  a[k]?.bind (fun p => o2 p j i)

/-- Merge of two optional values under a binary operation. -/
def omap2 (f : α → β → γ) : Option α → Option β → Option γ
  | some a, some b => some (f a b)
  | _, _ => none

/-- Merge of three optional values under a ternary operation. -/
def omap3 (f : α → β → γ → δ) : Option α → Option β → Option γ → Option δ
  | some a, some b, some c => some (f a b c)
  | _, _, _ => none

theorem getElem?_zipWith3L (f : α → β → γ → δ) (as : List α) (bs : List β)
    (cs : List γ) (i : ℕ) :
    (zipWith3L f as bs cs)[i]? = omap3 f as[i]? bs[i]? cs[i]? := by
  induction as generalizing bs cs i with
  | nil => cases bs <;> cases cs <;> simp [zipWith3L, omap3]
  | cons a as ih =>
    cases bs with
    | nil => simp [zipWith3L, omap3]
    | cons b bs =>
      cases cs with
      | nil => simp [zipWith3L, omap3]
      | cons z cs => cases i <;> simp [zipWith3L, omap3, ih]

theorem getElem?_zipWith_omap2 (f : α → β → γ) (as : List α) (bs : List β)
    (i : ℕ) : (List.zipWith f as bs)[i]? = omap2 f as[i]? bs[i]? := by
  rw [List.getElem?_zipWith]
  cases as[i]? <;> cases bs[i]? <;> rfl

theorem o2_azip2 (f : α → β → γ) (a : Arr2 α) (b : Arr2 β) (j i : ℕ) :
    o2 (azip2 f a b) j i = omap2 f (o2 a j i) (o2 b j i) := by
  unfold o2 azip2
  rw [getElem?_zipWith_omap2]
  cases a[j]? <;> cases b[j]? <;> simp [omap2, getElem?_zipWith_omap2]

theorem o3_azip3 (f : α → β → γ) (a : Arr3 α) (b : Arr3 β) (k j i : ℕ) :
    o3 (azip3 f a b) k j i = omap2 f (o3 a k j i) (o3 b k j i) := by
  unfold o3 azip3
  rw [getElem?_zipWith_omap2]
  cases a[k]? <;> cases b[k]? <;> simp [omap2, o2_azip2]

theorem o2_zipWith3L (f : α → β → γ → δ) (a : Arr2 α) (b : Arr2 β) (w : Arr2 γ)
    (j i : ℕ) :
    o2 (zipWith3L (zipWith3L f) a b w) j i = omap3 f (o2 a j i) (o2 b j i) (o2 w j i) := by
  unfold o2
  rw [getElem?_zipWith3L]
  rcases a[j]? with _ | p <;> rcases b[j]? with _ | q <;> rcases w[j]? with _ | r <;>
    simp [omap3, getElem?_zipWith3L]

theorem o3_azip3w (f : α → β → γ → δ) (a : Arr3 α) (b : Arr3 β) (w : Arr3 γ)
    (k j i : ℕ) :
    o3 (azip3w f a b w) k j i = omap3 f (o3 a k j i) (o3 b k j i) (o3 w k j i) := by
  unfold o3 azip3w
  rw [getElem?_zipWith3L]
  rcases a[k]? with _ | p <;> rcases b[k]? with _ | q <;> rcases w[k]? with _ | r <;>
    simp [omap3, o2_zipWith3L]

theorem o2_amap2 (f : α → β) (a : Arr2 α) (j i : ℕ) :
    o2 (amap2 f a) j i = (o2 a j i).map f := by
  unfold o2 amap2
  rw [List.getElem?_map]
  cases a[j]? <;> simp

theorem o3_amap3 (f : α → β) (a : Arr3 α) (k j i : ℕ) :
    o3 (amap3 f a) k j i = (o3 a k j i).map f := by
  unfold o3 amap3
  rw [List.getElem?_map]
  cases a[k]? <;> simp [o2_amap2]

theorem o2_replicate (n m : ℕ) (v : α) (j i : ℕ) :
    o2 (List.replicate n (List.replicate m v)) j i =
      if j < n ∧ i < m then some v else none := by
  unfold o2
  rw [List.getElem?_replicate]
  by_cases hj : j < n <;> by_cases hi : i < m <;>
    simp [hj, hi, List.getElem?_replicate]

/-
  Longitude normalisation, from src/utils.py lines 12-19:

    def fix_lon_range (lon, max_lon=180):
        if max_lon is not None:
            index = lon >= max_lon
            lon[index] = lon[index] - 360
            index = lon < max_lon-360
            lon[index] = lon[index] + 360
        return lon

  The two masked assignments act independently on each element, so they are a
  composition of two elementwise conditional updates.
-/
def fix_lon_range (lon : List ℚ) (max_lon : Option ℚ) : List ℚ :=
  match max_lon with
  | some ml =>
      (lon.map (fun x => if x ≥ ml then x - 360 else x)).map
        (fun x => if x < ml - 360 then x + 360 else x)
  | none => lon

/-
  Tiling helpers, from src/utils.py lines 30-37 and 41-50 (list-argument branch):

    def xy_to_xyz (data, grid):
        if isinstance(grid, list):
            nz = grid[2]
        ...
        return np.tile(data, (nz, 1, 1))

    def z_to_xyz (data, grid):
        if isinstance(grid, list):
            nx = grid[0]
            ny = grid[1]
        ...
        return np.tile(np.expand_dims(np.expand_dims(np.copy(data),1),2), (1, ny, nx))
-/
def xy_to_xyz (data : Arr2 ℚ) (grid : List ℕ) : Arr3 ℚ :=
  List.replicate (grid.getD 2 0) data

def z_to_xyz (data : List ℚ) (grid : List ℕ) : Arr3 ℚ :=
  data.map (fun v => List.replicate (grid.getD 1 0) (List.replicate (grid.getD 0 0) v))

theorem o3_xy_to_xyz (data : Arr2 ℚ) (dims : List ℕ) (k j i : ℕ) :
    o3 (xy_to_xyz data dims) k j i =
      if k < dims.getD 2 0 then o2 data j i else none := by
  unfold o3 xy_to_xyz
  rw [List.getElem?_replicate]
  split <;> simp

theorem o3_z_to_xyz (data : List ℚ) (dims : List ℕ) (k j i : ℕ) :
    o3 (z_to_xyz data dims) k j i =
      if j < dims.getD 1 0 ∧ i < dims.getD 0 0 then data[k]? else none := by
  unfold o3 z_to_xyz
  rw [List.getElem?_map]
  cases data[k]? with
  | none => simp
  | some v =>
    simp only [Option.map_some', Option.some_bind]
    rw [o2_replicate]

theorem o3_zeros (nz ny nx k j i : ℕ) :
    o3 (List.replicate nz (List.replicate ny (List.replicate nx (0 : ℚ)))) k j i =
      if k < nz ∧ j < ny ∧ i < nx then some 0 else none := by
  unfold o3
  rw [List.getElem?_replicate]
  by_cases hk : k < nz
  · simp only [hk, if_true, Option.some_bind]
    rw [o2_replicate]
    by_cases h : j < ny ∧ i < nx
    · simp [h, hk]
    · simp [h]
  · simp [hk]

/-
  Partial-cell fraction computation, from src/utils.py lines 421-474.  The
  staggering of bathymetry and draft onto u/v points (lines 423-435) is kept
  as a separate helper returning the effective (bathy, draft) pair:

    if gtype == 'u':
        bathy = np.concatenate((np.expand_dims(bathy[:,0],1),
                                np.maximum(bathy[:,:-1], bathy[:,1:])), axis=1)
        draft = np.concatenate((np.expand_dims(draft[:,0],1),
                                np.minimum(draft[:,:-1], draft[:,1:])), axis=1)
        draft = np.maximum(draft, bathy)
    elif gtype == 'v':
        ... same along axis 0 ...
-/
def hfac_stagger (gtype : String) (bathy draft : Arr2 ℚ) : Arr2 ℚ × Arr2 ℚ :=
  if gtype = "u" then
    let bathy2 := bathy.map (fun r => r.take 1 ++ List.zipWith max r.dropLast r.tail)
    let draft2 := draft.map (fun r => r.take 1 ++ List.zipWith min r.dropLast r.tail)
    (bathy2, azip2 max draft2 bathy2)
  else if gtype = "v" then
    let bathy2 := bathy.take 1 ++ azip2 max bathy.dropLast bathy.tail
    let draft2 := draft.take 1 ++ azip2 min draft.dropLast draft.tail
    (bathy2, azip2 max draft2 bathy2)
  else (bathy, draft)

/-- Per-level minimum fraction, from line 468 of src/utils.py:
hfac_limit = np.maximum(hFacMin, np.minimum(hFacMinDr/dz, 1)). -/
def hfac_limit (hFacMin hFacMinDr dz : ℚ) : ℚ :=
  max hFacMin (min (hFacMinDr / dz) 1)

/-- Raw open fraction of one cell: the pipeline of src/utils.py lines 452-465
(initialise to zero, then the four disjoint masked assignments), viewed at a
single cell with bathymetry b, draft d, upper interface za, lower interface
zb. -/
def hfac_cell_raw (b d za zb : ℚ) : ℚ :=
  let dz := |zb - za|
  let h : ℚ := 0
  let h := if zb ≥ b ∧ za ≤ d then 1 else h
  let h := if zb < b ∧ za ≤ d then (za - b) / dz else h
  let h := if zb ≥ b ∧ za > d then (d - zb) / dz else h
  let h := if zb < b ∧ za > d then (d - b) / dz else h
  h

/-- Full per-cell fraction including the hFac limitations of lines 467-472. -/
def hfac_cell (b d za zb m dr : ℚ) : ℚ :=
  let lim := hfac_limit m dr |zb - za|
  let h := hfac_cell_raw b d za zb
  let h := if h < lim / 2 then 0 else h
  let h := if h ≥ lim / 2 ∧ h < lim then lim else h
  h

/-
  calc_hfac, from src/utils.py lines 421-474.  Each numpy masked assignment
  hfac[index] = v[index] becomes an elementwise conditional update; the
  sequencing of the assignments is preserved exactly, including the tiling of
  dz with the dimension triple [nx, ny, ny] on line 448.
-/
def calc_hfac (bathy draft : Arr2 ℚ) (z_edges : List ℚ) (hFacMin hFacMinDr : ℚ)
    (gtype : String) : Arr3 ℚ :=
  let bd := hfac_stagger gtype bathy draft
  let bathy := bd.1
  let draft := bd.2
  let z_above := z_edges.dropLast
  let z_below := z_edges.tail
  let dz := List.zipWith (fun zb za => |zb - za|) z_edges.tail z_edges.dropLast
  let nz := dz.length
  let ny := bathy.length
  let nx := (bathy.headD []).length
  let bathy3 := xy_to_xyz bathy [nx, ny, nz]
  let draft3 := xy_to_xyz draft [nx, ny, nz]
  let dz3 := z_to_xyz dz [nx, ny, ny]
  let z_above3 := z_to_xyz z_above [nx, ny, nz]
  let z_below3 := z_to_xyz z_below [nx, ny, nz]
  let hfac : Arr3 ℚ := List.replicate nz (List.replicate ny (List.replicate nx 0))
  let idx := azip3 (· && ·) (azip3 (fun zb b => decide (zb ≥ b)) z_below3 bathy3)
    (azip3 (fun za d => decide (za ≤ d)) z_above3 draft3)
  let hfac := azip3 (fun ix h => if ix then (1 : ℚ) else h) idx hfac
  let idx := azip3 (· && ·) (azip3 (fun zb b => decide (zb < b)) z_below3 bathy3)
    (azip3 (fun za d => decide (za ≤ d)) z_above3 draft3)
  let v := azip3 (· / ·) (azip3 (· - ·) z_above3 bathy3) dz3
  let hfac := azip3w (fun ix x h => if ix then x else h) idx v hfac
  let idx := azip3 (· && ·) (azip3 (fun zb b => decide (zb ≥ b)) z_below3 bathy3)
    (azip3 (fun za d => decide (za > d)) z_above3 draft3)
  let v := azip3 (· / ·) (azip3 (· - ·) draft3 z_below3) dz3
  let hfac := azip3w (fun ix x h => if ix then x else h) idx v hfac
  let idx := azip3 (· && ·) (azip3 (fun zb b => decide (zb < b)) z_below3 bathy3)
    (azip3 (fun za d => decide (za > d)) z_above3 draft3)
  let v := azip3 (· / ·) (azip3 (· - ·) draft3 bathy3) dz3
  let hfac := azip3w (fun ix x h => if ix then x else h) idx v hfac
  let lim := amap3 (fun dzv => hfac_limit hFacMin hFacMinDr dzv) dz3
  let idx := azip3 (fun h l => decide (h < l / 2)) hfac lim
  let hfac := azip3 (fun ix h => if ix then (0 : ℚ) else h) idx hfac
  let idx := azip3 (fun h l => decide (h ≥ l / 2) && decide (h < l)) hfac lim
  let hfac := azip3w (fun ix l h => if ix then l else h) idx lim hfac
  hfac

/-- Raw open fractions: the same pipeline stopped just before the hFac
limitations (src/utils.py lines 421-465). -/
def calc_hfac_raw (bathy draft : Arr2 ℚ) (z_edges : List ℚ) (gtype : String) : Arr3 ℚ :=
  let bd := hfac_stagger gtype bathy draft
  let bathy := bd.1
  let draft := bd.2
  let z_above := z_edges.dropLast
  let z_below := z_edges.tail
  let dz := List.zipWith (fun zb za => |zb - za|) z_edges.tail z_edges.dropLast
  let nz := dz.length
  let ny := bathy.length
  let nx := (bathy.headD []).length
  let bathy3 := xy_to_xyz bathy [nx, ny, nz]
  let draft3 := xy_to_xyz draft [nx, ny, nz]
  let dz3 := z_to_xyz dz [nx, ny, ny]
  let z_above3 := z_to_xyz z_above [nx, ny, nz]
  let z_below3 := z_to_xyz z_below [nx, ny, nz]
  let hfac : Arr3 ℚ := List.replicate nz (List.replicate ny (List.replicate nx 0))
  let idx := azip3 (· && ·) (azip3 (fun zb b => decide (zb ≥ b)) z_below3 bathy3)
    (azip3 (fun za d => decide (za ≤ d)) z_above3 draft3)
  let hfac := azip3 (fun ix h => if ix then (1 : ℚ) else h) idx hfac
  let idx := azip3 (· && ·) (azip3 (fun zb b => decide (zb < b)) z_below3 bathy3)
    (azip3 (fun za d => decide (za ≤ d)) z_above3 draft3)
  let v := azip3 (· / ·) (azip3 (· - ·) z_above3 bathy3) dz3
  let hfac := azip3w (fun ix x h => if ix then x else h) idx v hfac
  let idx := azip3 (· && ·) (azip3 (fun zb b => decide (zb ≥ b)) z_below3 bathy3)
    (azip3 (fun za d => decide (za > d)) z_above3 draft3)
  let v := azip3 (· / ·) (azip3 (· - ·) draft3 z_below3) dz3
  let hfac := azip3w (fun ix x h => if ix then x else h) idx v hfac
  let idx := azip3 (· && ·) (azip3 (fun zb b => decide (zb < b)) z_below3 bathy3)
    (azip3 (fun za d => decide (za > d)) z_above3 draft3)
  let v := azip3 (· / ·) (azip3 (· - ·) draft3 bathy3) dz3
  let hfac := azip3w (fun ix x h => if ix then x else h) idx v hfac
  hfac

/-- Pointwise description of calc_hfac_raw: at a cell whose staggered
bathymetry, staggered draft and bounding interface depths are known, the raw
pipeline computes exactly the scalar hfac_cell_raw value. -/
theorem o3_calc_hfac_raw (bathy draft : Arr2 ℚ) (z_edges : List ℚ) (g : String)
    (k j i : ℕ) (b d za zb : ℚ)
    (hB : o2 (hfac_stagger g bathy draft).1 j i = some b)
    (hD : o2 (hfac_stagger g bathy draft).2 j i = some d)
    (hza : z_edges[k]? = some za)
    (hzb : z_edges[k + 1]? = some zb)
    (hnx : i < ((hfac_stagger g bathy draft).1.headD []).length) :
    o3 (calc_hfac_raw bathy draft z_edges g) k j i = some (hfac_cell_raw b d za zb) := by
  have hk1 : k + 1 < z_edges.length := (List.getElem?_eq_some_iff.mp hzb).1
  have hknz : k < z_edges.length - 1 := by omega
  have hj : j < (hfac_stagger g bathy draft).1.length := by
    unfold o2 at hB
    rcases hjq : (hfac_stagger g bathy draft).1[j]? with _ | row
    · rw [hjq] at hB; simp at hB
    · exact (List.getElem?_eq_some_iff.mp hjq).1
  have hdz : (List.zipWith (fun zb za => |zb - za|) z_edges.tail z_edges.dropLast)[k]? =
      some |zb - za| := by
    rw [getElem?_zipWith_omap2, List.getElem?_tail, List.getElem?_dropLast,
      if_pos hknz, hzb, hza]
    rfl
  have hnzlen : k < (List.zipWith (fun zb za => |zb - za|) z_edges.tail z_edges.dropLast).length := by
    rw [List.length_zipWith, List.length_tail, List.length_dropLast]
    omega
  have hzaK : z_edges.dropLast[k]? = some za := by
    rw [List.getElem?_dropLast, if_pos hknz, hza]
  have hzbK : z_edges.tail[k]? = some zb := by
    rw [List.getElem?_tail, hzb]
  simp only [calc_hfac_raw, o3_azip3, o3_azip3w, o3_amap3, o3_xy_to_xyz, o3_z_to_xyz,
    o3_zeros, List.getD_eq_getElem?_getD, List.getElem?_cons_zero, List.getElem?_cons_succ,
    Option.getD_some, hB, hD, hdz, hzaK, hzbK, hnzlen, hj, hnx, and_self, if_true,
    if_pos, omap2, omap3, hfac_cell_raw]
  simp [Bool.and_eq_true, decide_eq_true_eq]

/-- Pointwise description of calc_hfac: at a cell whose staggered bathymetry,
staggered draft and bounding interface depths are known, the full pipeline
computes exactly the scalar hfac_cell value. -/
theorem o3_calc_hfac (bathy draft : Arr2 ℚ) (z_edges : List ℚ) (m dr : ℚ) (g : String)
    (k j i : ℕ) (b d za zb : ℚ)
    (hB : o2 (hfac_stagger g bathy draft).1 j i = some b)
    (hD : o2 (hfac_stagger g bathy draft).2 j i = some d)
    (hza : z_edges[k]? = some za)
    (hzb : z_edges[k + 1]? = some zb)
    (hnx : i < ((hfac_stagger g bathy draft).1.headD []).length) :
    o3 (calc_hfac bathy draft z_edges m dr g) k j i = some (hfac_cell b d za zb m dr) := by
  have hk1 : k + 1 < z_edges.length := (List.getElem?_eq_some_iff.mp hzb).1
  have hknz : k < z_edges.length - 1 := by omega
  have hj : j < (hfac_stagger g bathy draft).1.length := by
    unfold o2 at hB
    rcases hjq : (hfac_stagger g bathy draft).1[j]? with _ | row
    · rw [hjq] at hB; simp at hB
    · exact (List.getElem?_eq_some_iff.mp hjq).1
  have hdz : (List.zipWith (fun zb za => |zb - za|) z_edges.tail z_edges.dropLast)[k]? =
      some |zb - za| := by
    rw [getElem?_zipWith_omap2, List.getElem?_tail, List.getElem?_dropLast,
      if_pos hknz, hzb, hza]
    rfl
  have hnzlen : k < (List.zipWith (fun zb za => |zb - za|) z_edges.tail z_edges.dropLast).length := by
    rw [List.length_zipWith, List.length_tail, List.length_dropLast]
    omega
  have hzaK : z_edges.dropLast[k]? = some za := by
    rw [List.getElem?_dropLast, if_pos hknz, hza]
  have hzbK : z_edges.tail[k]? = some zb := by
    rw [List.getElem?_tail, hzb]
  simp only [calc_hfac, o3_azip3, o3_azip3w, o3_amap3, o3_xy_to_xyz, o3_z_to_xyz,
    o3_zeros, List.getD_eq_getElem?_getD, List.getElem?_cons_zero, List.getElem?_cons_succ,
    Option.getD_some, hB, hD, hdz, hzaK, hzbK, hnzlen, hj, hnx, and_self, if_true,
    if_pos, omap2, omap3, Option.map_some', hfac_cell, hfac_cell_raw]
  simp [Bool.and_eq_true, decide_eq_true_eq]

/-- Sequencing of the two hFac limitation steps collapses to a three-way case
split on the raw fraction: a cell zeroed by the first masked assignment can
never satisfy the second mask, because that would need the limit to be both
nonpositive and positive. -/
theorem hfac_cell_eq_floor_cases (b d za zb m dr : ℚ) :
    hfac_cell b d za zb m dr =
      (if hfac_cell_raw b d za zb < hfac_limit m dr |zb - za| / 2 then 0
       else if hfac_cell_raw b d za zb < hfac_limit m dr |zb - za| then
         hfac_limit m dr |zb - za|
       else hfac_cell_raw b d za zb) := by
  unfold hfac_cell
  by_cases h1 : hfac_cell_raw b d za zb < hfac_limit m dr |zb - za| / 2
  · simp only [h1, if_true]
    have hno : ¬ ((0 : ℚ) ≥ hfac_limit m dr |zb - za| / 2 ∧
        (0 : ℚ) < hfac_limit m dr |zb - za|) := by
      rintro ⟨ha, hb⟩
      rw [ge_iff_le] at ha
      linarith
    simp [hno]
  · simp only [h1, if_false]
    have hge : hfac_cell_raw b d za zb ≥ hfac_limit m dr |zb - za| / 2 :=
      le_of_not_lt h1
    by_cases h2 : hfac_cell_raw b d za zb < hfac_limit m dr |zb - za|
    · simp [hge, h2]
    · simp [h2]

/-- Claim C1: for every bathymetry, draft, interface array and parameters, the
value calc_hfac assigns to a cell is obtained from the raw open fraction
computed by the same pipeline (calc_hfac_raw) by applying the per-level floor
hfac_limit = max(hFacMin, min(hFacMinDr/dz, 1)): fractions below half the
floor become 0, fractions in the half-open interval from half the floor to the
floor become exactly the floor, and fractions at or above the floor pass
through unchanged. -/
theorem calc_hfac_applies_floor (bathy draft : Arr2 ℚ) (z_edges : List ℚ)
    (m dr : ℚ) (g : String) (k j i : ℕ) (b d za zb raw : ℚ)
    (hB : o2 (hfac_stagger g bathy draft).1 j i = some b)
    (hD : o2 (hfac_stagger g bathy draft).2 j i = some d)
    (hza : z_edges[k]? = some za)
    (hzb : z_edges[k + 1]? = some zb)
    (hnx : i < ((hfac_stagger g bathy draft).1.headD []).length)
    (hraw : o3 (calc_hfac_raw bathy draft z_edges g) k j i = some raw) :
    o3 (calc_hfac bathy draft z_edges m dr g) k j i =
      some (if raw < hfac_limit m dr |zb - za| / 2 then 0
        else if raw < hfac_limit m dr |zb - za| then hfac_limit m dr |zb - za|
        else raw) := by
  have hr := o3_calc_hfac_raw bathy draft z_edges g k j i b d za zb hB hD hza hzb hnx
  rw [hraw] at hr
  have hval : raw = hfac_cell_raw b d za zb := Option.some.inj hr
  subst hval
  rw [o3_calc_hfac bathy draft z_edges m dr g k j i b d za zb hB hD hza hzb hnx,
    hfac_cell_eq_floor_cases]

/-- Claim C1, witness: a concrete cell whose raw fraction 1/2 is snapped up to
the floor. -/
theorem calc_hfac_applies_floor_witness :
    o3 (calc_hfac [[-5]] [[0]] [0, -10] (1/10) 20 "t") 0 0 0 =
      some (if (1/2 : ℚ) < hfac_limit (1/10) 20 |(-10 : ℚ) - 0| / 2 then 0
        else if (1/2 : ℚ) < hfac_limit (1/10) 20 |(-10 : ℚ) - 0| then
          hfac_limit (1/10) 20 |(-10 : ℚ) - 0|
        else 1/2) :=
  calc_hfac_applies_floor [[-5]] [[0]] [0, -10] (1/10) 20 "t" 0 0 0 (-5) 0 0 (-10) (1/2)
    (by decide) (by decide) (by decide) (by decide) (by decide)
    (by rw [o3_calc_hfac_raw [[-5]] [[0]] [0, -10] "t" 0 0 0 (-5) 0 0 (-10)
          (by decide) (by decide) (by decide) (by decide) (by decide)]
        norm_num [hfac_cell_raw])

/-- Variant of calc_hfac whose thickness tiling uses the dimension triple
[nx, ny, nz].  Modelled from the spec: design note in §9 says implementers
should treat the correct triple as [nx, ny, nz] where the source writes
[nx, ny, ny]; this definition follows the spec wording so the two can be
compared. -/
def calc_hfac_nz_tile (bathy draft : Arr2 ℚ) (z_edges : List ℚ) (hFacMin hFacMinDr : ℚ)
    (gtype : String) : Arr3 ℚ :=
  let bd := hfac_stagger gtype bathy draft
  let bathy := bd.1
  let draft := bd.2
  let z_above := z_edges.dropLast
  let z_below := z_edges.tail
  let dz := List.zipWith (fun zb za => |zb - za|) z_edges.tail z_edges.dropLast
  let nz := dz.length
  let ny := bathy.length
  let nx := (bathy.headD []).length
  let bathy3 := xy_to_xyz bathy [nx, ny, nz]
  let draft3 := xy_to_xyz draft [nx, ny, nz]
  let dz3 := z_to_xyz dz [nx, ny, nz]
  let z_above3 := z_to_xyz z_above [nx, ny, nz]
  let z_below3 := z_to_xyz z_below [nx, ny, nz]
  let hfac : Arr3 ℚ := List.replicate nz (List.replicate ny (List.replicate nx 0))
  let idx := azip3 (· && ·) (azip3 (fun zb b => decide (zb ≥ b)) z_below3 bathy3)
    (azip3 (fun za d => decide (za ≤ d)) z_above3 draft3)
  let hfac := azip3 (fun ix h => if ix then (1 : ℚ) else h) idx hfac
  let idx := azip3 (· && ·) (azip3 (fun zb b => decide (zb < b)) z_below3 bathy3)
    (azip3 (fun za d => decide (za ≤ d)) z_above3 draft3)
  let v := azip3 (· / ·) (azip3 (· - ·) z_above3 bathy3) dz3
  let hfac := azip3w (fun ix x h => if ix then x else h) idx v hfac
  let idx := azip3 (· && ·) (azip3 (fun zb b => decide (zb ≥ b)) z_below3 bathy3)
    (azip3 (fun za d => decide (za > d)) z_above3 draft3)
  let v := azip3 (· / ·) (azip3 (· - ·) draft3 z_below3) dz3
  let hfac := azip3w (fun ix x h => if ix then x else h) idx v hfac
  let idx := azip3 (· && ·) (azip3 (fun zb b => decide (zb < b)) z_below3 bathy3)
    (azip3 (fun za d => decide (za > d)) z_above3 draft3)
  let v := azip3 (· / ·) (azip3 (· - ·) draft3 bathy3) dz3
  let hfac := azip3w (fun ix x h => if ix then x else h) idx v hfac
  let lim := amap3 (fun dzv => hfac_limit hFacMin hFacMinDr dzv) dz3
  let idx := azip3 (fun h l => decide (h < l / 2)) hfac lim
  let hfac := azip3 (fun ix h => if ix then (0 : ℚ) else h) idx hfac
  let idx := azip3 (fun h l => decide (h ≥ l / 2) && decide (h < l)) hfac lim
  let hfac := azip3w (fun ix l h => if ix then l else h) idx lim hfac
  hfac

/-- Claim C10: z_to_xyz reads only the first two entries of its dimension-list
argument, so the two tiling triples [nx, ny, ny] and [nx, ny, nz] give the
same tiled array, and calc_hfac coincides extensionally with the variant that
uses the apparently intended triple. -/
theorem z_to_xyz_ignores_third_entry :
    (∀ (data : List ℚ) (nx ny a b : ℕ),
      z_to_xyz data [nx, ny, a] = z_to_xyz data [nx, ny, b]) ∧
    (∀ (bathy draft : Arr2 ℚ) (z_edges : List ℚ) (m dr : ℚ) (g : String),
      calc_hfac_nz_tile bathy draft z_edges m dr g = calc_hfac bathy draft z_edges m dr g) := by
  exact ⟨fun data nx ny a b => rfl, fun bathy draft z_edges m dr g => rfl⟩

/-- Exhaustive case description of the raw fraction: fully open,
bathymetry-truncated, draft-truncated, and doubly truncated cells. -/
theorem hfac_cell_raw_full (b d za zb : ℚ) (h1 : b ≤ zb) (h2 : za ≤ d) :
    hfac_cell_raw b d za zb = 1 := by
  simp only [hfac_cell_raw]
  rw [if_neg (fun hc => absurd hc.1 (not_lt.mpr h1)),
    if_neg (fun hc => absurd hc.2 (not_lt.mpr h2)),
    if_neg (fun hc => absurd hc.1 (not_lt.mpr h1)),
    if_pos ⟨h1, h2⟩]

theorem hfac_cell_raw_bathy (b d za zb : ℚ) (h1 : zb < b) (h2 : za ≤ d) :
    hfac_cell_raw b d za zb = (za - b) / |zb - za| := by
  simp only [hfac_cell_raw]
  rw [if_neg (fun hc => absurd hc.2 (not_lt.mpr h2)),
    if_neg (fun hc => absurd hc.1 (not_le.mpr h1)),
    if_pos ⟨h1, h2⟩]

theorem hfac_cell_raw_draft (b d za zb : ℚ) (h1 : b ≤ zb) (h2 : d < za) :
    hfac_cell_raw b d za zb = (d - zb) / |zb - za| := by
  simp only [hfac_cell_raw]
  rw [if_neg (fun hc => absurd hc.1 (not_lt.mpr h1)),
    if_pos ⟨h1, h2⟩]

theorem hfac_cell_raw_both (b d za zb : ℚ) (h1 : zb < b) (h2 : d < za) :
    hfac_cell_raw b d za zb = (d - b) / |zb - za| := by
  simp only [hfac_cell_raw]
  rw [if_pos ⟨h1, h2⟩]

theorem hfac_cell_raw_le_one (b d za zb : ℚ) (hne : za ≠ zb) :
    hfac_cell_raw b d za zb ≤ 1 := by
  have hdz : 0 < |zb - za| := abs_pos.mpr (sub_ne_zero.mpr (fun h => hne h.symm))
  have habs : za - zb ≤ |zb - za| := by rw [abs_sub_comm]; exact le_abs_self _
  rcases le_or_lt b zb with h1 | h1 <;> rcases le_or_lt za d with h2 | h2
  · rw [hfac_cell_raw_full b d za zb h1 h2]
  · rw [hfac_cell_raw_draft b d za zb h1 h2, div_le_one hdz]; linarith
  · rw [hfac_cell_raw_bathy b d za zb h1 h2, div_le_one hdz]; linarith
  · rw [hfac_cell_raw_both b d za zb h1 h2, div_le_one hdz]; linarith

theorem hfac_cell_mem_unit (b d za zb m dr : ℚ) (hm0 : 0 ≤ m) (hm1 : m ≤ 1)
    (hne : za ≠ zb) : 0 ≤ hfac_cell b d za zb m dr ∧ hfac_cell b d za zb m dr ≤ 1 := by
  have hr1 := hfac_cell_raw_le_one b d za zb hne
  have hl1 : hfac_limit m dr |zb - za| ≤ 1 := max_le hm1 (min_le_right _ _)
  have hl0 : (0 : ℚ) ≤ hfac_limit m dr |zb - za| := le_trans hm0 (le_max_left _ _)
  rw [hfac_cell_eq_floor_cases]
  split_ifs with h1 h2
  · exact ⟨le_refl 0, by norm_num⟩
  · exact ⟨hl0, hl1⟩
  · refine ⟨?_, hr1⟩
    have := le_of_not_lt h2
    linarith

/-
  Land mask from a 3D hfac array, src/grid.py lines 171-173:

    def build_land_mask (self, hfac):
        return np.sum(hfac, axis=0)==0
-/
def sum_axis0 (a : Arr3 ℚ) : Arr2 ℚ :=
  match a with
  | [] => []
  | h :: t => t.foldl (azip2 (· + ·)) h

def build_land_mask (hfac : Arr3 ℚ) : Arr2 Bool :=
  amap2 (fun s => decide (s = 0)) (sum_axis0 hfac)

theorem o2_foldl_azip2_add (t : List (Arr2 ℚ)) (acc : Arr2 ℚ) (j i : ℕ) (s : ℚ)
    (vals : List ℚ) (hacc : o2 acc j i = some s)
    (h : t.map (fun p => o2 p j i) = vals.map some) :
    o2 (t.foldl (azip2 (· + ·)) acc) j i = some (s + vals.sum) := by
  induction t generalizing acc s vals with
  | nil =>
    cases vals with
    | nil => simpa using hacc
    | cons v vs => simp at h
  | cons p t ih =>
    cases vals with
    | nil => simp at h
    | cons v vs =>
      simp only [List.map_cons, List.cons.injEq] at h
      have hstep : o2 (azip2 (· + ·) acc p) j i = some (s + v) := by
        rw [o2_azip2, hacc, h.1]; rfl
      rw [List.foldl_cons, ih _ _ _ hstep h.2]
      rw [List.sum_cons]
      ring_nf

theorem o2_sum_axis0 (a : Arr3 ℚ) (j i : ℕ) (vals : List ℚ)
    (h : a.map (fun p => o2 p j i) = vals.map some) (hne : a ≠ []) :
    o2 (sum_axis0 a) j i = some vals.sum := by
  cases a with
  | nil => exact absurd rfl hne
  | cons p t =>
    cases vals with
    | nil => simp at h
    | cons v vs =>
      simp only [List.map_cons, List.cons.injEq] at h
      unfold sum_axis0
      rw [o2_foldl_azip2_add t p j i v vs h.1 h.2, List.sum_cons]

theorem list_sum_eq_zero_of_nonneg (l : List ℚ) (h : ∀ x ∈ l, 0 ≤ x) :
    l.sum = 0 ↔ ∀ x ∈ l, x = 0 := by
  induction l with
  | nil => simp
  | cons v vs ih =>
    have hv : 0 ≤ v := h v (List.mem_cons_self v vs)
    have hvs : ∀ x ∈ vs, 0 ≤ x := fun x hx => h x (List.mem_cons_of_mem v hx)
    have hsum : 0 ≤ vs.sum := List.sum_nonneg hvs
    rw [List.sum_cons]
    constructor
    · intro hz x hx
      have hv0 : v = 0 := by linarith [hsum, hv]
      have hvs0 : vs.sum = 0 := by linarith
      rcases List.mem_cons.mp hx with h1 | h2
      · rw [h1, hv0]
      · exact (ih hvs).mp hvs0 x h2
    · intro hall
      have hv0 : v = 0 := hall v (List.mem_cons_self v vs)
      have : vs.sum = 0 := (ih hvs).mpr (fun x hx => hall x (List.mem_cons_of_mem v hx))
      rw [hv0, this, add_zero]

/-- Claim C2, counterexample.  The claim quantifies over arbitrary hFacMin;
with hFacMin = 2 a fully open cell (raw fraction 1) is snapped up to the
per-level floor 2, so the returned fraction exceeds 1. -/
theorem calc_hfac_exceeds_one_cex :
    o3 (calc_hfac [[-10]] [[0]] [0, -1] 2 20 "t") 0 0 0 = some 2 ∧ ¬ ((2 : ℚ) ≤ 1) := by
  constructor
  · rw [o3_calc_hfac [[-10]] [[0]] [0, -1] 2 20 "t" 0 0 0 (-10) 0 0 (-1)
      (by decide) (by decide) (by decide) (by decide) (by decide)]
    norm_num [hfac_cell, hfac_cell_raw, hfac_limit]
  · norm_num

/-- Claim C2, amended: when 0 ≤ hFacMin ≤ 1 and the two interfaces bounding a
cell are distinct, every fraction returned by calc_hfac lies in the closed
interval from 0 to 1; and for a 3D hfac array whose entries along a column are
nonnegative, the land mask built from it (column sum equal to zero) marks the
column exactly when every cell of the column is zero, so a positive fraction
anywhere in the column means the column is not land-masked. -/
theorem calc_hfac_bounds_amended :
    (∀ (bathy draft : Arr2 ℚ) (z_edges : List ℚ) (m dr : ℚ) (g : String)
      (k j i : ℕ) (b d za zb v : ℚ),
      o2 (hfac_stagger g bathy draft).1 j i = some b →
      o2 (hfac_stagger g bathy draft).2 j i = some d →
      z_edges[k]? = some za → z_edges[k + 1]? = some zb →
      i < ((hfac_stagger g bathy draft).1.headD []).length →
      0 ≤ m → m ≤ 1 → za ≠ zb →
      o3 (calc_hfac bathy draft z_edges m dr g) k j i = some v →
      0 ≤ v ∧ v ≤ 1) ∧
    (∀ (hfac : Arr3 ℚ) (j i : ℕ) (vals : List ℚ),
      hfac ≠ [] →
      hfac.map (fun p => o2 p j i) = vals.map some →
      (∀ x ∈ vals, 0 ≤ x) →
      (o2 (build_land_mask hfac) j i = some true → ∀ x ∈ vals, x = 0) ∧
      (∀ x ∈ vals, 0 < x → o2 (build_land_mask hfac) j i = some false)) := by
  constructor
  · intro bathy draft z_edges m dr g k j i b d za zb v hB hD hza hzb hnx hm0 hm1 hne hv
    rw [o3_calc_hfac bathy draft z_edges m dr g k j i b d za zb hB hD hza hzb hnx] at hv
    have : v = hfac_cell b d za zb m dr := Option.some.inj hv.symm
    rw [this]
    exact hfac_cell_mem_unit b d za zb m dr hm0 hm1 hne
  · intro hfac j i vals hne h hnn
    have hmask : o2 (build_land_mask hfac) j i = some (decide (vals.sum = 0)) := by
      unfold build_land_mask
      rw [o2_amap2, o2_sum_axis0 hfac j i vals h hne]
      rfl
    constructor
    · intro htrue
      rw [hmask] at htrue
      have : decide (vals.sum = 0) = true := Option.some.inj htrue
      exact (list_sum_eq_zero_of_nonneg vals hnn).mp (of_decide_eq_true this)
    · intro x hx hpos
      rw [hmask]
      have hsum : vals.sum ≠ 0 := by
        intro hz
        have := (list_sum_eq_zero_of_nonneg vals hnn).mp hz x hx
        linarith
      simp [hsum]

/-- Claim C2, witness for the amended theorem at concrete inputs. -/
theorem calc_hfac_bounds_amended_witness :
    ((0 : ℚ) ≤ 1 ∧ (1 : ℚ) ≤ 1) ∧
    ((o2 (build_land_mask [[[0]]]) 0 0 = some true → ∀ x ∈ [(0 : ℚ)], x = 0) ∧
      (∀ x ∈ [(0 : ℚ)], 0 < x → o2 (build_land_mask [[[0]]]) 0 0 = some false)) := by
  constructor
  · refine calc_hfac_bounds_amended.1 [[-10]] [[0]] [0, -1] (1/10) 20 "t" 0 0 0
      (-10) 0 0 (-1) 1 (by decide) (by decide) (by decide) (by decide) (by decide)
      (by norm_num) (by norm_num) (by norm_num) ?_
    rw [o3_calc_hfac [[-10]] [[0]] [0, -1] (1/10) 20 "t" 0 0 0 (-10) 0 0 (-1)
      (by decide) (by decide) (by decide) (by decide) (by decide)]
    norm_num [hfac_cell, hfac_cell_raw, hfac_limit]
  · exact calc_hfac_bounds_amended.2 [[[0]]] 0 0 [0] (by simp) (by decide)
      (by intro x hx; simp at hx; rw [hx])

/-- Bounds on FRIS from src/constants.py line 41:
fris_bounds = [-85., -29., -84., -74.]. -/
def fris_bounds : List ℚ := [-85, -29, -84, -74]

/-- The two FRIS sub-regions from src/grid.py line 190, each in the form
[lon_min, lon_max, lat_min, lat_max]; -74.4 and -77.85 written as exact
rationals. -/
def fris_regions : List (List ℚ) :=
  [[fris_bounds.getD 0 0, -45, fris_bounds.getD 2 0, -372/5],
   [-45, fris_bounds.getD 1 0, fris_bounds.getD 2 0, -1557/20]]

/-- Membership of a point in an axis-aligned box, as in the index expression
on src/grid.py line 193. -/
def in_bounds_box (bounds : List ℚ) (lon lat : ℚ) : Bool :=
  decide (lon ≥ bounds.getD 0 0) && decide (lon ≤ bounds.getD 1 0) &&
  decide (lat ≥ bounds.getD 2 0) && decide (lat ≤ bounds.getD 3 0)

/-
  FRIS mask from src/grid.py lines 185-195:

    def build_fris_mask (self, ice_mask, lon, lat):
        fris_mask = np.zeros(ice_mask.shape, dtype='bool')
        regions = [[fris_bounds[0], -45, fris_bounds[2], -74.4],
                   [-45, fris_bounds[1], fris_bounds[2], -77.85]]
        for bounds in regions:
            index = ice_mask*(lon >= bounds[0])*(lon <= bounds[1])*(lat >= bounds[2])*(lat <= bounds[3])
            fris_mask[index] = True
        return fris_mask
-/
def build_fris_mask (ice_mask : Arr2 Bool) (lon lat : Arr2 ℚ) : Arr2 Bool :=
  let fris_mask := amap2 (fun _ => false) ice_mask
  fris_regions.foldl (fun fm bounds =>
    azip2 (fun ix f => if ix then true else f)
      (azip2 (· && ·) ice_mask (azip2 (fun lo la => in_bounds_box bounds lo la) lon lat))
      fm) fris_mask

/-- Claim C6, counterexample.  The two FRIS boxes share the meridian at 45W:
the point (-45, -80) satisfies the bounds of both boxes, refuting the claimed
disjointness; and on a one-point grid whose only point is ice-masked and lies
inside the western box, the FRIS mask equals the whole ice mask, refuting
strictness of the inclusion. -/
theorem build_fris_mask_cex :
    in_bounds_box (fris_regions.getD 0 []) (-45) (-80) = true ∧
    in_bounds_box (fris_regions.getD 1 []) (-45) (-80) = true ∧
    build_fris_mask [[true]] [[-50]] [[-80]] = [[true]] := by
  refine ⟨?_, ?_, ?_⟩
  · simp only [in_bounds_box, fris_regions, fris_bounds, Bool.and_eq_true, decide_eq_true_eq]
    norm_num
  · simp only [in_bounds_box, fris_regions, fris_bounds, Bool.and_eq_true, decide_eq_true_eq]
    norm_num
  · simp only [build_fris_mask, fris_regions, fris_bounds, List.foldl_cons, List.foldl_nil,
      amap2, azip2, List.map_cons, List.map_nil, List.zipWith_cons_cons, List.zipWith_nil_right,
      List.zipWith_nil_left, in_bounds_box]
    norm_num

/-- Claim C6, amended: the FRIS mask is a subset of the ice mask (every
FRIS-masked point is ice-masked), and the two constituent boxes are disjoint
away from the 45W meridian: a point whose longitude is not exactly -45 cannot
satisfy both boxes' bounds. -/
theorem build_fris_mask_amended :
    (∀ (ice_mask : Arr2 Bool) (lon lat : Arr2 ℚ) (j i : ℕ),
      o2 (build_fris_mask ice_mask lon lat) j i = some true →
      o2 ice_mask j i = some true) ∧
    (∀ lo la : ℚ, lo ≠ -45 →
      ¬ (in_bounds_box (fris_regions.getD 0 []) lo la = true ∧
         in_bounds_box (fris_regions.getD 1 []) lo la = true)) := by
  constructor
  · intro ice_mask lon lat j i h
    simp only [build_fris_mask, fris_regions, List.foldl_cons, List.foldl_nil] at h
    rw [o2_azip2, o2_azip2, o2_azip2, o2_azip2, o2_azip2, o2_azip2, o2_amap2] at h
    rcases hice : o2 ice_mask j i with _ | bice
    · rw [hice] at h; simp [omap2] at h
    · rw [hice] at h
      rcases hlon : o2 lon j i with _ | vlon
      · rw [hlon] at h; simp [omap2] at h
      · rw [hlon] at h
        rcases hlat : o2 lat j i with _ | vlat
        · rw [hlat] at h; simp [omap2] at h
        · rw [hlat] at h
          simp only [omap2, Option.map_some', Option.some.injEq] at h
          cases bice with
          | true => rfl
          | false => simp at h
  · intro lo la hne ⟨h0, h1⟩
    simp only [in_bounds_box, fris_regions, fris_bounds, Bool.and_eq_true,
      decide_eq_true_eq, List.getD_eq_getElem?_getD] at h0 h1
    have hle : lo ≤ -45 := by
      have := h0.1.1.2
      simpa using this
    have hge : (-45 : ℚ) ≤ lo := by
      have := h1.1.1.1
      simpa using this
    exact hne (le_antisymm hle hge)

/-- Claim C6, witness for the amended theorem at concrete inputs. -/
theorem build_fris_mask_amended_witness :
    o2 [[true]] 0 0 = some true ∧
    ¬ (in_bounds_box (fris_regions.getD 0 []) 0 0 = true ∧
       in_bounds_box (fris_regions.getD 1 []) 0 0 = true) := by
  constructor
  · refine build_fris_mask_amended.1 [[true]] [[-50]] [[-80]] 0 0 ?_
    simp only [build_fris_mask, fris_regions, fris_bounds, List.foldl_cons, List.foldl_nil,
      amap2, azip2, List.map_cons, List.map_nil, List.zipWith_cons_cons, List.zipWith_nil_right,
      List.zipWith_nil_left, in_bounds_box, o2]
    norm_num
  · exact build_fris_mask_amended.2 0 0 (by norm_num)

/-- Coordinate and mask fields of the Grid object of src/grid.py relevant to
the grid-type-aware accessors (lines 236-319). -/
structure Grid where
  lon_1d : List ℚ
  lat_1d : List ℚ
  lon_corners_1d : List ℚ
  lat_corners_1d : List ℚ
  lon_2d : Arr2 ℚ
  lat_2d : Arr2 ℚ
  lon_corners_2d : Arr2 ℚ
  lat_corners_2d : Arr2 ℚ
  hfac : Arr3 ℚ
  hfac_w : Arr3 ℚ
  hfac_s : Arr3 ℚ
  land_mask : Arr2 Bool
  land_mask_u : Arr2 Bool
  land_mask_v : Arr2 Bool
  ice_mask : Arr2 Bool
  ice_mask_u : Arr2 Bool
  ice_mask_v : Arr2 Bool
  fris_mask : Arr2 Bool
  fris_mask_u : Arr2 Bool
  fris_mask_v : Arr2 Bool

/-- Shared gtype dispatch of Grid.get_lon_lat (src/grid.py lines 252-262),
applied to the four coordinate arrays already selected by dim. -/
def select_lon_lat {α : Type} (gtype : String) (lon lon_corners lat lat_corners : α) :
    Except String (α × α) :=
  if gtype = "t" ∨ gtype = "w" then Except.ok (lon, lat)
  else if gtype = "u" then Except.ok (lon_corners, lat)
  else if gtype = "v" then Except.ok (lon, lat_corners)
  else if gtype = "psi" then Except.ok (lon_corners, lat_corners)
  else Except.error ("Error (get_lon_lat): invalid gtype " ++ gtype)

/-- Grid.get_lon_lat, src/grid.py lines 236-262: dim selects the 1D or 2D
coordinate arrays (any other dim is a fatal error), then the grid type picks
the pair. -/
def Grid.get_lon_lat (g : Grid) (gtype : String) (dim : ℕ) :
    Except String ((List ℚ × List ℚ) ⊕ (Arr2 ℚ × Arr2 ℚ)) :=
  if dim = 1 then
    (select_lon_lat gtype g.lon_1d g.lon_corners_1d g.lat_1d g.lat_corners_1d).map Sum.inl
  else if dim = 2 then
    (select_lon_lat gtype g.lon_2d g.lon_corners_2d g.lat_2d g.lat_corners_2d).map Sum.inr
  else Except.error "Error (get_lon_lat): dim must be 1 or 2"

/-- Grid.get_hfac, src/grid.py lines 267-277. -/
def Grid.get_hfac (g : Grid) (gtype : String) : Except String (Arr3 ℚ) :=
  if gtype = "t" then Except.ok g.hfac
  else if gtype = "u" then Except.ok g.hfac_w
  else if gtype = "v" then Except.ok g.hfac_s
  else Except.error ("Error (get_hfac): no hfac exists for the " ++ gtype ++ " grid")

/-- Grid.get_land_mask, src/grid.py lines 281-291. -/
def Grid.get_land_mask (g : Grid) (gtype : String) : Except String (Arr2 Bool) :=
  if gtype = "t" then Except.ok g.land_mask
  else if gtype = "u" then Except.ok g.land_mask_u
  else if gtype = "v" then Except.ok g.land_mask_v
  else Except.error ("Error (get_land_mask): no mask exists for the " ++ gtype ++ " grid")

/-- Grid.get_ice_mask, src/grid.py lines 295-305. -/
def Grid.get_ice_mask (g : Grid) (gtype : String) : Except String (Arr2 Bool) :=
  if gtype = "t" then Except.ok g.ice_mask
  else if gtype = "u" then Except.ok g.ice_mask_u
  else if gtype = "v" then Except.ok g.ice_mask_v
  else Except.error ("Error (get_ice_mask): no mask exists for the " ++ gtype ++ " grid")

/-- Grid.get_fris_mask, src/grid.py lines 309-319. -/
def Grid.get_fris_mask (g : Grid) (gtype : String) : Except String (Arr2 Bool) :=
  if gtype = "t" then Except.ok g.fris_mask
  else if gtype = "u" then Except.ok g.fris_mask_u
  else if gtype = "v" then Except.ok g.fris_mask_v
  else Except.error ("Error (get_fris_mask): no mask exists for the " ++ gtype ++ " grid")

/-- Whether an Except value is an error. -/
def isErr : Except String α → Bool
  | Except.error _ => true
  | Except.ok _ => false

/-- Concrete Grid with pairwise distinct coordinate arrays, used to evaluate
the accessors. -/
def grid0 : Grid where
  lon_1d := [1]
  lat_1d := [2]
  lon_corners_1d := [3]
  lat_corners_1d := [4]
  lon_2d := [[5]]
  lat_2d := [[6]]
  lon_corners_2d := [[7]]
  lat_corners_2d := [[8]]
  hfac := [[[1]]]
  hfac_w := [[[1]]]
  hfac_s := [[[1]]]
  land_mask := [[false]]
  land_mask_u := [[false]]
  land_mask_v := [[false]]
  ice_mask := [[false]]
  ice_mask_u := [[false]]
  ice_mask_v := [[false]]
  fris_mask := [[false]]
  fris_mask_u := [[false]]
  fris_mask_v := [[false]]

/-- Claim C7, counterexample.  The claim says get_lon_lat fails for the psi
grid type at dim = 1; on the code it succeeds, returning the 1D corner
coordinate pair. -/
theorem get_lon_lat_psi_dim1_cex :
    grid0.get_lon_lat "psi" 1 = Except.ok (Sum.inl ([3], [4])) := by
  rfl

/-- Claim C7, amended: get_lon_lat fails with an invalid-argument error for
every dim other than 1 and 2 and for every grid type outside t, u, v, w, psi;
it returns the tracer coordinates for the w grid type; the psi grid type is
supported at dim = 1 as well, returning the corner coordinate pair; and
get_hfac, get_land_mask, get_ice_mask, get_fris_mask fail with an
invalid-argument error for every grid type other than t, u, v, in particular
for psi and w. -/
theorem grid_accessors_amended :
    (∀ (g : Grid) (gtype : String) (dim : ℕ),
      dim ≠ 1 → dim ≠ 2 → isErr (g.get_lon_lat gtype dim) = true) ∧
    (∀ (g : Grid) (gtype : String) (dim : ℕ),
      gtype ≠ "t" → gtype ≠ "u" → gtype ≠ "v" → gtype ≠ "w" → gtype ≠ "psi" →
      isErr (g.get_lon_lat gtype dim) = true) ∧
    (∀ g : Grid, g.get_lon_lat "w" 2 = Except.ok (Sum.inr (g.lon_2d, g.lat_2d))) ∧
    (∀ g : Grid, g.get_lon_lat "psi" 1 =
      Except.ok (Sum.inl (g.lon_corners_1d, g.lat_corners_1d))) ∧
    (∀ (g : Grid) (gtype : String),
      gtype ≠ "t" → gtype ≠ "u" → gtype ≠ "v" →
      isErr (g.get_hfac gtype) = true ∧ isErr (g.get_land_mask gtype) = true ∧
      isErr (g.get_ice_mask gtype) = true ∧ isErr (g.get_fris_mask gtype) = true) := by
  refine ⟨?_, ?_, ?_, ?_, ?_⟩
  · intro g gtype dim h1 h2
    simp only [Grid.get_lon_lat, if_neg h1, if_neg h2]
    rfl
  · intro g gtype dim h1 h2 h3 h4 h5
    have hsel : ∀ (α : Type) (a b x y : α),
        select_lon_lat gtype a b x y = Except.error
          ("Error (get_lon_lat): invalid gtype " ++ gtype) := by
      intro α a b x y
      simp only [select_lon_lat]
      rw [if_neg (by rintro (h | h) <;> [exact h1 h; exact h4 h]),
        if_neg h2, if_neg h3, if_neg h5]
    simp only [Grid.get_lon_lat]
    by_cases hd1 : dim = 1
    · simp [hd1, hsel, isErr, Except.map]
    · by_cases hd2 : dim = 2
      · simp [hd1, hd2, hsel, isErr, Except.map]
      · simp [hd1, hd2, isErr]
  · intro g
    simp [Grid.get_lon_lat, select_lon_lat, Except.map]
  · intro g
    simp [Grid.get_lon_lat, select_lon_lat, Except.map]
  · intro g gtype h1 h2 h3
    refine ⟨?_, ?_, ?_, ?_⟩ <;>
      simp only [Grid.get_hfac, Grid.get_land_mask, Grid.get_ice_mask, Grid.get_fris_mask,
        if_neg h1, if_neg h2, if_neg h3] <;> rfl

/-- Claim C7, witness for the amended theorem at concrete inputs. -/
theorem grid_accessors_amended_witness :
    isErr (grid0.get_lon_lat "t" 3) = true ∧
    isErr (grid0.get_lon_lat "q" 1) = true ∧
    grid0.get_lon_lat "w" 2 = Except.ok (Sum.inr ([[5]], [[6]])) ∧
    isErr (grid0.get_hfac "psi") = true ∧ isErr (grid0.get_land_mask "psi") = true ∧
    isErr (grid0.get_ice_mask "psi") = true ∧ isErr (grid0.get_fris_mask "psi") = true :=
  ⟨grid_accessors_amended.1 grid0 "t" 3 (by norm_num) (by norm_num),
   grid_accessors_amended.2.1 grid0 "q" 1 (by decide) (by decide) (by decide)
     (by decide) (by decide),
   grid_accessors_amended.2.2.1 grid0,
   (grid_accessors_amended.2.2.2.2 grid0 "psi" (by decide) (by decide) (by decide)).1,
   (grid_accessors_amended.2.2.2.2 grid0 "psi" (by decide) (by decide) (by decide)).2.1,
   (grid_accessors_amended.2.2.2.2 grid0 "psi" (by decide) (by decide) (by decide)).2.2.1,
   (grid_accessors_amended.2.2.2.2 grid0 "psi" (by decide) (by decide) (by decide)).2.2.2⟩

/-- Native SOSE resolution in degrees, src/constants.py line 60. -/
def sose_res : ℚ := 1/6

/-
  Longitude index window of SOSEGrid.__init__, src/grid.py lines 509-532.
  np.nonzero(cond)[0][0] is the first index satisfying cond, i.e. findIdx.

    if xmin == self.lon_1d[0]: self.i0_before = 0
    elif xmin > self.lon_1d[0]: self.i0_before = np.nonzero(self.lon_1d > xmin)[0][0] - 1
    else: error 'not allowed to extend westward'
    self.i0_after = 0
    if xmax == self.lon_corners_1d[-1]: self.i1_before = sose_nx
    elif xmax < self.lon_corners_1d[-1]: self.i1_before = np.nonzero(self.lon_corners_1d > xmax)[0][0] + 1
    else: error 'not allowed to extend eastward'
    self.i1_after = self.i1_before - self.i0_before + self.i0_after
-/
def sose_lon_bounds (lon lonc : List ℚ) (xmin xmax : ℚ) (nx0 : ℕ) :
    Except String (ℕ × ℕ × ℕ × ℕ) :=
  (if xmin = lon.headD 0 then Except.ok 0
   else if xmin > lon.headD 0 then
     Except.ok (lon.findIdx (fun l => decide (l > xmin)) - 1)
   else Except.error "Error (SOSEGrid): not allowed to extend westward").bind
  (fun i0_before =>
    let i0_after := 0
    (if xmax = lonc.getLastD 0 then Except.ok nx0
     else if xmax < lonc.getLastD 0 then
       Except.ok (lonc.findIdx (fun l => decide (l > xmax)) + 1)
     else Except.error "Error (SOSEGrid): not allowed to extend eastward").bind
    (fun i1_before =>
      Except.ok (i0_before, i0_after, i1_before, i1_before - i0_before + i0_after)))

/-
  Latitude index window of SOSEGrid.__init__, src/grid.py lines 534-559.

    if ymin == self.lat_1d[0]: j0_before = 0; j0_after = 0
    elif ymin > self.lat_1d[0]: j0_before = np.nonzero(self.lat_1d > ymin)[0][0] - 1; j0_after = 0
    elif ymin < self.lat_1d[0]: j0_after = int(np.ceil((self.lat_1d[0]-ymin)/sose_res)); j0_before = 0
    if ymax == self.lat_corners_1d[-1]: j1_before = sose_ny
    elif ymax < self.lat_corners_1d[-1]: j1_before = np.nonzero(self.lat_corners_1d > ymax)[0][0] + 1
    else: error 'not allowed to extend northward'
    j1_after = j1_before - j0_before + j0_after
-/
def sose_lat_bounds (lat latc : List ℚ) (ymin ymax : ℚ) (ny0 : ℕ) :
    Except String (ℕ × ℕ × ℕ × ℕ) :=
  (if ymin = lat.headD 0 then Except.ok ((0 : ℕ), (0 : ℕ))
   else if ymin > lat.headD 0 then
     Except.ok (lat.findIdx (fun l => decide (l > ymin)) - 1, 0)
   else Except.ok (0, (Int.ceil ((lat.headD 0 - ymin) / sose_res)).toNat)).bind
  (fun j0 =>
    (if ymax = latc.getLastD 0 then Except.ok ny0
     else if ymax < latc.getLastD 0 then
       Except.ok (latc.findIdx (fun l => decide (l > ymax)) + 1)
     else Except.error "Error (SOSEGrid): not allowed to extend northward").bind
    (fun j1_before =>
      Except.ok (j0.1, j0.2, j1_before, j1_before - j0.1 + j0.2)))

/-
  Latitude axis assembly, src/grid.py lines 586-589:

    lat_extend = np.flipud(-1*(np.arange(self.j0_after)+1)*sose_res + self.lat_1d[self.j0_before])
    lat_trim = self.lat_1d[self.j0_before:self.j1_before]
    self.lat_1d = np.concatenate((lat_extend, lat_trim))
-/
def sose_lat_axis (lat : List ℚ) (j0_before j0_after j1_before : ℕ) : List ℚ :=
  let lat_extend := ((List.range j0_after).map
    (fun (q : ℕ) => -1 * ((q : ℚ) + 1) * sose_res + lat.getD j0_before 0)).reverse
  let lat_trim := (lat.drop j0_before).take (j1_before - j0_before)
  lat_extend ++ lat_trim

/-- Claim C8: longitude may only be trimmed: a western target bound west of
the first native centre, or an eastern bound east of the last native corner,
is a fatal error; a northern target bound beyond the last native corner
latitude is a fatal error; but a southern bound below the first native
latitude extends the axis southward by ceil((lat[0]-ymin)/sose_res) regularly
spaced samples at the native resolution. -/
theorem sose_bounds_spec (lon lonc lat latc : List ℚ) (xmin xmax ymin ymax : ℚ)
    (nx0 ny0 : ℕ) :
    (xmin < lon.headD 0 →
      sose_lon_bounds lon lonc xmin xmax nx0 =
        Except.error "Error (SOSEGrid): not allowed to extend westward") ∧
    (lon.headD 0 ≤ xmin → xmax > lonc.getLastD 0 →
      sose_lon_bounds lon lonc xmin xmax nx0 =
        Except.error "Error (SOSEGrid): not allowed to extend eastward") ∧
    (ymax > latc.getLastD 0 →
      sose_lat_bounds lat latc ymin ymax ny0 =
        Except.error "Error (SOSEGrid): not allowed to extend northward") ∧
    (ymin < lat.headD 0 → ymax ≤ latc.getLastD 0 →
      ∃ j1b : ℕ, sose_lat_bounds lat latc ymin ymax ny0 =
        Except.ok (0, (Int.ceil ((lat.headD 0 - ymin) / sose_res)).toNat, j1b,
          j1b + (Int.ceil ((lat.headD 0 - ymin) / sose_res)).toNat)) ∧
    (∀ (lat2 : List ℚ) (j0a j1b : ℕ),
      (sose_lat_axis lat2 0 j0a j1b).length = j0a + min j1b lat2.length ∧
      (∀ q, q < j0a → (sose_lat_axis lat2 0 j0a j1b)[q]? =
        some (lat2.getD 0 0 - ((j0a - q : ℕ) : ℚ) * sose_res))) := by
  refine ⟨?_, ?_, ?_, ?_, ?_⟩
  · intro hw
    simp only [sose_lon_bounds]
    rw [if_neg (ne_of_lt hw), if_neg (by exact fun hc => absurd hw (not_lt.mpr (le_of_lt hc)))]
    rfl
  · intro hw he
    simp only [sose_lon_bounds]
    have h2 : ∀ i0 : ℕ,
        ((if xmax = lonc.getLastD 0 then Except.ok nx0
          else if xmax < lonc.getLastD 0 then
            Except.ok (lonc.findIdx (fun l => decide (l > xmax)) + 1)
          else Except.error
            "Error (SOSEGrid): not allowed to extend eastward" : Except String ℕ)) =
          Except.error "Error (SOSEGrid): not allowed to extend eastward" := by
      intro i0
      rw [if_neg (ne_of_gt he), if_neg (not_lt.mpr (le_of_lt he))]
    rcases eq_or_lt_of_le hw with h | h
    · rw [if_pos h.symm]
      simp only [Except.bind, h2 0]
    · rw [if_neg (ne_of_gt h), if_pos h]
      simp only [Except.bind, h2 0]
  · intro hn
    simp only [sose_lat_bounds]
    have h2 : (if ymax = latc.getLastD 0 then Except.ok ny0
        else if ymax < latc.getLastD 0 then
          Except.ok (latc.findIdx (fun l => decide (l > ymax)) + 1)
        else Except.error
          "Error (SOSEGrid): not allowed to extend northward" : Except String ℕ) =
        Except.error "Error (SOSEGrid): not allowed to extend northward" := by
      rw [if_neg (ne_of_gt hn), if_neg (not_lt.mpr (le_of_lt hn))]
    rw [h2]
    by_cases hs1 : ymin = lat.headD 0
    · rw [if_pos hs1]; rfl
    · rw [if_neg hs1]
      by_cases hs2 : ymin > lat.headD 0
      · rw [if_pos hs2]; rfl
      · rw [if_neg hs2]; rfl
  · intro hs hn
    simp only [sose_lat_bounds]
    rw [if_neg (ne_of_lt hs), if_neg (fun hc => absurd hs (not_lt.mpr (le_of_lt hc)))]
    rcases eq_or_lt_of_le hn with h | h
    · refine ⟨ny0, ?_⟩
      rw [if_pos h]
      rfl
    · refine ⟨latc.findIdx (fun l => decide (l > ymax)) + 1, ?_⟩
      rw [if_neg (ne_of_lt h), if_pos h]
      rfl
  · intro lat2 j0a j1b
    constructor
    · simp only [sose_lat_axis, List.length_append, List.length_reverse, List.length_map,
        List.length_range, List.drop_zero, List.length_take, Nat.sub_zero]
    · intro q hq
      simp only [sose_lat_axis]
      have hlen : q < (((List.range j0a).map
          (fun (q : ℕ) => -1 * ((q : ℚ) + 1) * sose_res + lat2.getD 0 0)).reverse).length := by
        simpa using hq
      rw [List.getElem?_append_left hlen]
      have hlen2 : q < (((List.range j0a).map
          (fun (q : ℕ) => -1 * ((q : ℚ) + 1) * sose_res + lat2.getD 0 0))).length := by
        simpa using hq
      rw [List.getElem?_reverse hlen2, List.getElem?_map]
      have hidx : ((List.range j0a).map
          (fun (q : ℕ) => -1 * ((q : ℚ) + 1) * sose_res + lat2.getD 0 0)).length - 1 - q =
          j0a - 1 - q := by
        simp
      rw [hidx, List.getElem?_range (by omega)]
      simp only [Option.map_some', Option.some.injEq]
      have hnat : (j0a - 1 - q) + 1 = j0a - q := by omega
      have hcast : ((j0a - 1 - q : ℕ) : ℚ) + 1 = ((j0a - q : ℕ) : ℚ) := by
        rw [← hnat]
        push_cast
        ring
      rw [hcast]
      ring

/-- Claim C8, witness at concrete inputs: native centre longitudes 10 and 20
with corners 5 and 15, native latitudes -60, -59 with corners at -60.5, -59.5. -/
theorem sose_bounds_spec_witness :
    sose_lon_bounds [10, 20] [5, 15] 3 100 2 =
      Except.error "Error (SOSEGrid): not allowed to extend westward" ∧
    sose_lon_bounds [10, 20] [5, 15] 10 100 2 =
      Except.error "Error (SOSEGrid): not allowed to extend eastward" ∧
    sose_lat_bounds [-60, -59] [-121/2, -119/2] (-70) 0 2 =
      Except.error "Error (SOSEGrid): not allowed to extend northward" ∧
    (∃ j1b : ℕ, sose_lat_bounds [-60, -59] [-121/2, -119/2] (-70) (-119/2) 2 =
      Except.ok (0, (Int.ceil (((-60 : ℚ) - (-70)) / sose_res)).toNat, j1b,
        j1b + (Int.ceil (((-60 : ℚ) - (-70)) / sose_res)).toNat)) ∧
    ((sose_lat_axis [-60, -59] 0 2 2).length = 2 + min 2 2 ∧
      (∀ q, q < 2 → (sose_lat_axis [-60, -59] 0 2 2)[q]? =
        some ((-60 : ℚ) - ((2 - q : ℕ) : ℚ) * sose_res))) := by
  have h := sose_bounds_spec [10, 20] [5, 15] [-60, -59] [-121/2, -119/2] 3 100 (-70) 0 2 2
  have h2 := sose_bounds_spec [10, 20] [5, 15] [-60, -59] [-121/2, -119/2] 10 100 (-70)
    (-119/2) 2 2
  refine ⟨h.1 (by norm_num), h2.2.1 (by norm_num) (by norm_num), h.2.2.1 (by norm_num),
    h2.2.2.2.1 (by norm_num) (by norm_num), ?_, ?_⟩
  · exact (h.2.2.2.2 [-60, -59] 2 2).1
  · intro q hq
    exact (h.2.2.2.2 [-60, -59] 2 2).2 q hq

/-
  Depth axis of SOSEGrid.__init__, src/grid.py lines 561-599 plus the final
  consistency checks of lines 614-619.  z is the native depth axis, zt the
  target model's depth axis (model_grid.z).

    self.k0_before = 0
    if z_shallow <= self.z[0]: self.k0_after = 0
    else: self.k0_after = 1
    if z_deep > self.z[-1]: self.k1_before = np.nonzero(self.z < z_deep)[0][0] + 1
    else: self.k1_before = sose_nz
    self.k1_after = self.k1_before + self.k0_after
    if z_deep < self.z[-1]: self.nz = self.k1_after + 1
    else: self.nz = self.k1_after
    z_above = 0*np.ones([self.k0_after])
    z_middle = self.z[self.k0_before:self.k1_before]
    z_below = (2*model_grid.z[-1] - model_grid.z[-2])*np.ones([self.nz-self.k1_after])
    self.z = np.concatenate((z_above, z_middle, z_below))
    ...
    if self.z[0] < z_shallow: error 'shallow bound not cleared'
    if self.z[-1] > z_deep: error 'deep bound not cleared'
-/
def sose_z_axis (z zt : List ℚ) : Except String (List ℚ) :=
  let z_shallow := zt.headD 0
  let z_deep := zt.getLastD 0
  let sose_nz := z.length
  let k0_before := 0
  let k0_after : ℕ := if z_shallow ≤ z.headD 0 then 0 else 1
  let k1_before := if z_deep > z.getLastD 0 then
    z.findIdx (fun zz => decide (zz < z_deep)) + 1 else sose_nz
  let k1_after := k1_before + k0_after
  let nz := if z_deep < z.getLastD 0 then k1_after + 1 else k1_after
  let z_above := List.replicate k0_after (0 : ℚ)
  let z_middle := (z.drop k0_before).take (k1_before - k0_before)
  let z_below := List.replicate (nz - k1_after) (2 * zt.getLastD 0 - zt.dropLast.getLastD 0)
  let z_new := z_above ++ z_middle ++ z_below
  if z_new.headD 0 < z_shallow then Except.error "Error (SOSEGrid): shallow bound not cleared"
  else if z_new.getLastD 0 > z_deep then Except.error "Error (SOSEGrid): deep bound not cleared"
  else Except.ok z_new

/-- Claim C9: the assembled SOSE depth axis appends exactly one linearly
extrapolated level 2*zt[-1] - zt[-2] when the target is deeper than the native
axis, prepends exactly one level of value 0 when the target is shallower, and
always brackets the target's vertical range, so the fatal consistency checks
never fire. -/
theorem sose_z_axis_spec (z zt : List ℚ) (hz : z ≠ []) (hzt : 2 ≤ zt.length)
    (hzt2 : zt.getLastD 0 ≤ zt.dropLast.getLastD 0) (hzt0 : zt.headD 0 ≤ 0) :
    ∃ zs, sose_z_axis z zt = Except.ok zs ∧
      zt.headD 0 ≤ zs.headD 0 ∧ zs.getLastD 0 ≤ zt.getLastD 0 ∧
      (zt.getLastD 0 < z.getLastD 0 →
        zs.getLastD 0 = 2 * zt.getLastD 0 - zt.dropLast.getLastD 0 ∧
        zs.length = (if zt.headD 0 ≤ z.headD 0 then 0 else 1) + z.length + 1) ∧
      (z.headD 0 < zt.headD 0 →
        zs.headD 0 = 0 ∧ zs.tail.headD 0 = z.headD 0) := by
  obtain ⟨a, z', rfl⟩ := List.exists_cons_of_ne_nil hz
  have hlenpos : 0 < (a :: z').length := by simp
  by_cases s : zt.headD 0 ≤ (a :: z').headD 0
  all_goals have sa := s
  all_goals rw [List.headD_cons] at sa
  all_goals rcases lt_trichotomy (zt.getLastD 0) ((a :: z').getLastD 0) with hd | hd | hd
  · -- shallow fits, deep extend
    have hB : ¬ ((a :: z').getLastD 0 < zt.getLastD 0) := not_lt.mpr (le_of_lt hd)
    refine ⟨a :: (z' ++ [2 * zt.getLastD 0 - zt.dropLast.getLastD 0]), ?_, ?_, ?_, ?_, ?_⟩
    · simp only [sose_z_axis, s, hd, hB, gt_iff_lt, if_true, if_false, List.drop_zero,
        Nat.sub_zero, List.take_length, List.replicate_zero, Nat.add_zero,
        Nat.add_sub_cancel_left, List.replicate_one, List.nil_append, List.cons_append,
        List.append_nil]
      have hlast : ((a :: (z' ++ [2 * zt.getLastD 0 - zt.dropLast.getLastD 0])).getLastD 0) =
          2 * zt.getLastD 0 - zt.dropLast.getLastD 0 := by
        rw [List.getLastD_cons, List.getLastD_concat]
      rw [if_neg (by rw [List.headD_cons]; exact not_lt.mpr sa),
        if_neg (by rw [hlast]; intro hcon; linarith)]
    · rw [List.headD_cons]; exact sa
    · rw [List.getLastD_cons, List.getLastD_concat]; linarith
    · intro _
      constructor
      · rw [List.getLastD_cons, List.getLastD_concat]
      · simp only [List.length_cons, List.length_append, List.length_cons,
          List.length_nil, if_pos s]
        omega
    · intro hcon
      rw [List.headD_cons] at hcon
      exact absurd sa (not_le.mpr hcon)
  · -- shallow fits, deep boundary matches exactly
    have hB : ¬ ((a :: z').getLastD 0 < zt.getLastD 0) := not_lt.mpr (le_of_eq hd)
    have hC : ¬ (zt.getLastD 0 < (a :: z').getLastD 0) := not_lt.mpr (le_of_eq hd.symm)
    refine ⟨a :: z', ?_, ?_, ?_, ?_, ?_⟩
    · simp only [sose_z_axis, s, hB, hC, gt_iff_lt, if_true, if_false, List.drop_zero,
        Nat.sub_zero, List.take_length, List.replicate_zero, Nat.add_zero, Nat.sub_self,
        List.nil_append, List.append_nil]
      rw [if_neg (by rw [List.headD_cons]; exact not_lt.mpr sa)]
    · rw [List.headD_cons]; exact sa
    · exact le_of_eq hd.symm
    · intro hcon
      exact absurd (hd ▸ hcon) (lt_irrefl _)
    · intro hcon
      rw [List.headD_cons] at hcon
      exact absurd sa (not_le.mpr hcon)
  · -- shallow fits, deep trim
    have hB : (a :: z').getLastD 0 < zt.getLastD 0 := hd
    have hC : ¬ (zt.getLastD 0 < (a :: z').getLastD 0) := not_lt.mpr (le_of_lt hd)
    have hlast0 : (a :: z').getLastD 0 = (a :: z')[(a :: z').length - 1] := by
      rw [List.getLastD_eq_getLast?, List.getLast?_eq_getElem?,
        List.getElem?_eq_getElem (by omega)]
      rfl
    have hex2 : ∃ x ∈ (a :: z'), (fun zz => decide (zz < zt.getLastD 0)) x = true := by
      refine ⟨(a :: z')[(a :: z').length - 1], List.getElem_mem _, ?_⟩
      simp only [decide_eq_true_eq]
      rw [← hlast0]
      exact hd
    have hfi : (a :: z').findIdx (fun zz => decide (zz < zt.getLastD 0)) < (a :: z').length :=
      List.findIdx_lt_length_of_exists hex2
    have hp : ((a :: z').get ⟨(a :: z').findIdx (fun zz => decide (zz < zt.getLastD 0)), hfi⟩) <
        zt.getLastD 0 := by
      have hsome : (a :: z')[(a :: z').findIdx (fun zz => decide (zz < zt.getLastD 0))]? =
          some ((a :: z').get ⟨(a :: z').findIdx (fun zz => decide (zz < zt.getLastD 0)), hfi⟩) :=
        List.getElem?_eq_getElem hfi
      have := List.findIdx_of_getElem?_eq_some hsome
      simpa using this
    set fi := (a :: z').findIdx (fun zz => decide (zz < zt.getLastD 0)) with hfidef
    have hmlast : ((a :: z').take (fi + 1)).getLastD 0 = (a :: z').get ⟨fi, hfi⟩ := by
      rw [List.getLastD_eq_getLast?, List.getLast?_eq_getElem?, List.length_take]
      have hmin : min (fi + 1) (a :: z').length = fi + 1 := by omega
      rw [hmin, Nat.add_sub_cancel, List.getElem?_take_of_lt (Nat.lt_succ_self fi),
        List.getElem?_eq_getElem hfi]
      rfl
    have hmhead : ((a :: z').take (fi + 1)).headD 0 = a := by
      rw [List.take_succ_cons, List.headD_cons]
    refine ⟨(a :: z').take (fi + 1), ?_, ?_, ?_, ?_, ?_⟩
    · simp only [sose_z_axis, s, hB, hC, gt_iff_lt, if_true, if_false, List.drop_zero,
        Nat.sub_zero, List.replicate_zero, Nat.add_zero, Nat.sub_self,
        List.nil_append, List.append_nil, ← hfidef]
      rw [if_neg (by rw [hmhead]; exact not_lt.mpr sa)]
      first
      | rfl
      | rw [if_neg (by rw [hmlast]; exact not_lt.mpr (le_of_lt hp))]
    · rw [hmhead]; exact sa
    · rw [hmlast]; exact le_of_lt hp
    · intro hcon
      exact absurd hcon (not_lt.mpr (le_of_lt hd))
    · intro hcon
      rw [List.headD_cons] at hcon
      exact absurd sa (not_le.mpr hcon)
  · -- shallow extend, deep extend
    have hB : ¬ ((a :: z').getLastD 0 < zt.getLastD 0) := not_lt.mpr (le_of_lt hd)
    refine ⟨0 :: (a :: (z' ++ [2 * zt.getLastD 0 - zt.dropLast.getLastD 0])), ?_, ?_, ?_, ?_, ?_⟩
    · simp only [sose_z_axis, s, hd, hB, gt_iff_lt, if_true, if_false, List.drop_zero,
        Nat.sub_zero, List.take_length, List.replicate_zero, Nat.add_zero,
        Nat.add_sub_cancel_left, List.replicate_one, List.nil_append, List.cons_append,
        List.append_nil, List.singleton_append]
      have hlast : ((0 : ℚ) :: (a :: (z' ++ [2 * zt.getLastD 0 - zt.dropLast.getLastD 0]))).getLastD 0 =
          2 * zt.getLastD 0 - zt.dropLast.getLastD 0 := by
        rw [List.getLastD_cons, List.getLastD_cons, List.getLastD_concat]
      rw [if_neg (by rw [List.headD_cons]; exact not_lt.mpr hzt0),
        if_neg (by rw [hlast]; intro hcon; linarith)]
    · rw [List.headD_cons]; exact hzt0
    · rw [List.getLastD_cons, List.getLastD_cons, List.getLastD_concat]; linarith
    · intro _
      constructor
      · rw [List.getLastD_cons, List.getLastD_cons, List.getLastD_concat]
      · simp only [List.length_cons, List.length_append, List.length_cons,
          List.length_nil, if_neg s]
        omega
    · intro _
      exact ⟨by rw [List.headD_cons], by simp⟩
  · -- shallow extend, deep boundary matches exactly
    have hB : ¬ ((a :: z').getLastD 0 < zt.getLastD 0) := not_lt.mpr (le_of_eq hd)
    have hC : ¬ (zt.getLastD 0 < (a :: z').getLastD 0) := not_lt.mpr (le_of_eq hd.symm)
    refine ⟨0 :: (a :: z'), ?_, ?_, ?_, ?_, ?_⟩
    · simp only [sose_z_axis, s, hB, hC, gt_iff_lt, if_true, if_false, List.drop_zero,
        Nat.sub_zero, List.take_length, List.replicate_zero, Nat.add_zero, Nat.sub_self,
        List.nil_append, List.append_nil, List.replicate_one, List.singleton_append]
      rw [if_neg (by rw [List.headD_cons]; exact not_lt.mpr hzt0)]
      first
      | rfl
      | rw [if_neg (by
          rw [List.getLastD_cons]
          exact not_lt.mpr (le_of_eq hd.symm))]
    · rw [List.headD_cons]; exact hzt0
    · rw [List.getLastD_cons]
      exact le_of_eq hd.symm
    · intro hcon
      exact absurd (hd ▸ hcon) (lt_irrefl _)
    · intro _
      exact ⟨by rw [List.headD_cons], by simp⟩
  · -- shallow extend, deep trim
    have hB : (a :: z').getLastD 0 < zt.getLastD 0 := hd
    have hC : ¬ (zt.getLastD 0 < (a :: z').getLastD 0) := not_lt.mpr (le_of_lt hd)
    have hlast0 : (a :: z').getLastD 0 = (a :: z')[(a :: z').length - 1] := by
      rw [List.getLastD_eq_getLast?, List.getLast?_eq_getElem?,
        List.getElem?_eq_getElem (by omega)]
      rfl
    have hex2 : ∃ x ∈ (a :: z'), (fun zz => decide (zz < zt.getLastD 0)) x = true := by
      refine ⟨(a :: z')[(a :: z').length - 1], List.getElem_mem _, ?_⟩
      simp only [decide_eq_true_eq]
      rw [← hlast0]
      exact hd
    have hfi : (a :: z').findIdx (fun zz => decide (zz < zt.getLastD 0)) < (a :: z').length :=
      List.findIdx_lt_length_of_exists hex2
    have hp : ((a :: z').get ⟨(a :: z').findIdx (fun zz => decide (zz < zt.getLastD 0)), hfi⟩) <
        zt.getLastD 0 := by
      have hsome : (a :: z')[(a :: z').findIdx (fun zz => decide (zz < zt.getLastD 0))]? =
          some ((a :: z').get ⟨(a :: z').findIdx (fun zz => decide (zz < zt.getLastD 0)), hfi⟩) :=
        List.getElem?_eq_getElem hfi
      have := List.findIdx_of_getElem?_eq_some hsome
      simpa using this
    set fi := (a :: z').findIdx (fun zz => decide (zz < zt.getLastD 0)) with hfidef
    have hmlast : ((a :: z').take (fi + 1)).getLastD 0 = (a :: z').get ⟨fi, hfi⟩ := by
      rw [List.getLastD_eq_getLast?, List.getLast?_eq_getElem?, List.length_take]
      have hmin : min (fi + 1) (a :: z').length = fi + 1 := by omega
      rw [hmin, Nat.add_sub_cancel, List.getElem?_take_of_lt (Nat.lt_succ_self fi),
        List.getElem?_eq_getElem hfi]
      rfl
    have hmhead : ((a :: z').take (fi + 1)).headD 0 = a := by
      rw [List.take_succ_cons, List.headD_cons]
    refine ⟨0 :: ((a :: z').take (fi + 1)), ?_, ?_, ?_, ?_, ?_⟩
    · simp only [sose_z_axis, s, hB, hC, gt_iff_lt, if_true, if_false, List.drop_zero,
        Nat.sub_zero, List.replicate_zero, Nat.add_zero, Nat.sub_self,
        List.nil_append, List.append_nil, List.replicate_one, List.singleton_append,
        ← hfidef]
      rw [if_neg (by rw [List.headD_cons]; exact not_lt.mpr hzt0)]
      first
      | rfl
      | rw [if_neg (by
          rw [List.getLastD_cons, hmlast]
          exact not_lt.mpr (le_of_lt hp))]
    · rw [List.headD_cons]; exact hzt0
    · rw [List.getLastD_cons]
      calc ((a :: z').take (fi + 1)).getLastD 0 = (a :: z').get ⟨fi, hfi⟩ := hmlast
        _ ≤ zt.getLastD 0 := le_of_lt hp
    · intro hcon
      exact absurd hcon (not_lt.mpr (le_of_lt hd))
    · intro _
      refine ⟨by rw [List.headD_cons], ?_⟩
      rw [List.tail_cons, hmhead, List.headD_cons]

/-- Claim C9, witness at concrete inputs: native depths -1, -3 against a
target with depths -2, -4 (deep extension), and against a target with depths
0, -1/2 (shallow fit and deep trim handled by the same theorem at other
inputs). -/
theorem sose_z_axis_spec_witness :
    ∃ zs, sose_z_axis [-1, -3] [-2, -4] = Except.ok zs ∧
      (-2 : ℚ) ≤ zs.headD 0 ∧ zs.getLastD 0 ≤ -4 ∧
      ((-4 : ℚ) < -3 →
        zs.getLastD 0 = 2 * (-4) - (-2) ∧
        zs.length = (if (-2 : ℚ) ≤ -1 then 0 else 1) + 2 + 1) ∧
      ((-1 : ℚ) < -2 → zs.headD 0 = 0 ∧ zs.tail.headD 0 = -1) := by
  have h := sose_z_axis_spec [-1, -3] [-2, -4] (by simp) (by simp)
    (by norm_num) (by norm_num)
  obtain ⟨zs, h1, h2, h3, h4, h5⟩ := h
  refine ⟨zs, h1, ?_, ?_, ?_, ?_⟩
  · simpa using h2
  · simpa using h3
  · intro hlt
    have := h4 (by norm_num)
    simpa using this
  · intro hcon
    norm_num at hcon

/-
  bdry_from_hfac, src/utils.py lines 478-508.  The NaN sentinel becomes an
  Option: none is an unassigned (NaN) entry.  One loop iteration:

    hfac_tmp = hfac[k,:]
    index = (hfac_tmp!=0)*np.isnan(bdry)
    if option == 'bathy': bdry[index] = z_edges[k] - dz[k]*hfac_tmp[index]
    elif option == 'draft': bdry[index] = z_edges[k] - dz[k]*(1-hfac_tmp[index])
-/
def bdry_step (opt : String) (hfac : Arr3 ℚ) (z_edges dz : List ℚ)
    (bdry : Arr2 (Option ℚ)) (k : ℕ) : Arr2 (Option ℚ) :=
  azip2 (fun h ob => match ob with
    | none =>
        if h ≠ 0 then
          if opt = "bathy" then some (z_edges.getD k 0 - dz.getD k 0 * h)
          else some (z_edges.getD k 0 - dz.getD k 0 * (1 - h))
        else none
    | some v => some v) (hfac.getD k []) bdry

/-
  bdry_from_hfac, src/utils.py lines 478-508:

    nz = hfac.shape[0]; ny = hfac.shape[1]; nx = hfac.shape[2]
    dz = z_edges[:-1]-z_edges[1:]
    bdry = np.zeros([ny, nx]); bdry[:,:] = np.nan
    if option == 'bathy': k_vals = range(nz-1, -1, -1)
    elif option == 'draft': k_vals = range(nz)
    else: error
    for k in k_vals: ...loop body above...
    bdry[np.isnan(bdry)] = 0
-/
def bdry_from_hfac (opt : String) (hfac : Arr3 ℚ) (z_edges : List ℚ) :
    Except String (Arr2 ℚ) :=
  let nz := hfac.length
  let ny := (hfac.headD []).length
  let nx := ((hfac.headD []).headD []).length
  let dz := List.zipWith (· - ·) z_edges.dropLast z_edges.tail
  let bdry0 : Arr2 (Option ℚ) := List.replicate ny (List.replicate nx none)
  match (if opt = "bathy" then Except.ok (List.range nz).reverse
    else if opt = "draft" then Except.ok (List.range nz)
    else Except.error "Error (bdry_from_hfac): invalid option") with
  | Except.error e => Except.error e
  | Except.ok k_vals =>
      Except.ok (amap2 (fun ob => ob.getD 0)
        (k_vals.foldl (bdry_step opt hfac z_edges dz) bdry0))

/-- model_bdry, src/utils.py lines 512-517. -/
def model_bdry (opt : String) (bathy draft : Arr2 ℚ) (z_edges : List ℚ)
    (hFacMin hFacMinDr : ℚ) : Except String (Arr2 ℚ) :=
  bdry_from_hfac opt (calc_hfac bathy draft z_edges hFacMin hFacMinDr "t") z_edges

/-- Scalar model of one loop step of bdry_from_hfac at a fixed horizontal
point whose column of fractions is colv. -/
def scan_step (opt : String) (z_edges dz : List ℚ) (colv : ℕ → ℚ)
    (st : Option ℚ) (k : ℕ) : Option ℚ :=
  match st with
  | none =>
      if colv k ≠ 0 then
        if opt = "bathy" then some (z_edges.getD k 0 - dz.getD k 0 * colv k)
        else some (z_edges.getD k 0 - dz.getD k 0 * (1 - colv k))
      else none
  | some v => some v

theorem o2_bdry_fold (opt : String) (hfac : Arr3 ℚ) (z_edges dz : List ℚ)
    (colv : ℕ → ℚ) (j i : ℕ) (ks : List ℕ)
    (hcol : ∀ k ∈ ks, o2 (hfac.getD k []) j i = some (colv k)) :
    ∀ (bdry : Arr2 (Option ℚ)) (st : Option ℚ), o2 bdry j i = some st →
      o2 (ks.foldl (bdry_step opt hfac z_edges dz) bdry) j i =
        some (ks.foldl (scan_step opt z_edges dz colv) st) := by
  induction ks with
  | nil => intro bdry st hst; simpa using hst
  | cons k ks ih =>
    intro bdry st hst
    rw [List.foldl_cons, List.foldl_cons]
    refine ih (fun k hk => hcol k (List.mem_cons_of_mem _ hk)) _ _ ?_
    unfold bdry_step
    rw [o2_azip2, hcol k (List.mem_cons_self k ks), hst]
    rfl

theorem foldl_scan_some (opt : String) (z_edges dz : List ℚ) (colv : ℕ → ℚ)
    (ks : List ℕ) (v : ℚ) :
    ks.foldl (scan_step opt z_edges dz colv) (some v) = some v := by
  induction ks with
  | nil => rfl
  | cons k ks ih => rw [List.foldl_cons]; exact ih

theorem foldl_scan_none (opt : String) (z_edges dz : List ℚ) (colv : ℕ → ℚ)
    (ks : List ℕ) :
    ks.foldl (scan_step opt z_edges dz colv) none =
      (ks.find? (fun k => decide (colv k ≠ 0))).map (fun k =>
        if opt = "bathy" then z_edges.getD k 0 - dz.getD k 0 * colv k
        else z_edges.getD k 0 - dz.getD k 0 * (1 - colv k)) := by
  induction ks with
  | nil => rfl
  | cons k ks ih =>
    by_cases hk : colv k ≠ 0
    · rw [List.foldl_cons]
      have hone : scan_step opt z_edges dz colv none k =
          some (if opt = "bathy" then z_edges.getD k 0 - dz.getD k 0 * colv k
            else z_edges.getD k 0 - dz.getD k 0 * (1 - colv k)) := by
        simp only [scan_step, if_pos hk]
        by_cases ho : opt = "bathy" <;> simp [ho]
      rw [hone, foldl_scan_some, List.find?_cons]
      simp [hk]
    · rw [List.foldl_cons]
      have hzero : scan_step opt z_edges dz colv none k = none := by
        simp [scan_step, hk]
      rw [hzero, ih, List.find?_cons]
      simp [hk]

theorem find?_reverse_range (nz k0 : ℕ) (p : ℕ → Bool) (hk0 : k0 < nz)
    (hp : p k0 = true) (habove : ∀ k, k0 < k → k < nz → p k = false) :
    (List.range nz).reverse.find? p = some k0 := by
  have hsplit : nz = (k0 + 1) + (nz - (k0 + 1)) := by omega
  rw [hsplit, List.range_add, List.reverse_append, List.find?_append]
  have h1 : (((List.range (nz - (k0 + 1))).map (k0 + 1 + ·)).reverse).find? p = none := by
    rw [List.find?_eq_none]
    intro x hx
    rw [List.mem_reverse, List.mem_map] at hx
    obtain ⟨t, ht, rfl⟩ := hx
    rw [List.mem_range] at ht
    have := habove (k0 + 1 + t) (by omega) (by omega)
    simp [this]
  rw [h1, Option.none_or, List.range_succ, List.reverse_append]
  simp only [List.reverse_cons, List.reverse_nil, List.nil_append, List.cons_append]
  exact List.find?_cons_of_pos _ hp

theorem find?_range_least (nz k0 : ℕ) (p : ℕ → Bool) (hk0 : k0 < nz)
    (hp : p k0 = true) (hbelow : ∀ k, k < k0 → p k = false) :
    (List.range nz).find? p = some k0 := by
  have hsplit : nz = k0 + (nz - k0) := by omega
  rw [hsplit, List.range_add, List.find?_append]
  have h1 : (List.range k0).find? p = none := by
    rw [List.find?_eq_none]
    intro x hx
    rw [List.mem_range] at hx
    simp [hbelow x hx]
  rw [h1, Option.none_or]
  have h2 : nz - k0 = (nz - k0 - 1) + 1 := by omega
  rw [h2, List.range_succ_eq_map]
  simp only [List.map_cons]
  rw [List.find?_cons_of_pos _ (by simpa using hp)]
  simp

/-- Thickness entry used by bdry_from_hfac, in bounds. -/
theorem dz_getD_eq (z_edges : List ℚ) (k : ℕ) (h : k + 1 < z_edges.length) :
    (List.zipWith (· - ·) z_edges.dropLast z_edges.tail).getD k 0 =
      z_edges.getD k 0 - z_edges.getD (k + 1) 0 := by
  rw [List.getD_eq_getElem?_getD, getElem?_zipWith_omap2, List.getElem?_dropLast,
    if_pos (by omega), List.getElem?_tail,
    List.getElem?_eq_getElem (show k < z_edges.length by omega),
    List.getElem?_eq_getElem (show k + 1 < z_edges.length from h)]
  simp only [omap2, Option.getD_some]
  rw [List.getD_eq_getElem?_getD, List.getD_eq_getElem?_getD,
    List.getElem?_eq_getElem (show k < z_edges.length by omega),
    List.getElem?_eq_getElem (show k + 1 < z_edges.length from h)]
  simp

theorem bdry_from_hfac_eval_bathy (hfac : Arr3 ℚ) (z_edges : List ℚ) :
    bdry_from_hfac "bathy" hfac z_edges = Except.ok (amap2 (fun ob => ob.getD 0)
      (((List.range hfac.length).reverse).foldl (bdry_step "bathy" hfac z_edges
        (List.zipWith (· - ·) z_edges.dropLast z_edges.tail))
      (List.replicate ((hfac.headD []).length)
        (List.replicate (((hfac.headD []).headD []).length) none)))) := rfl

theorem bdry_from_hfac_eval_draft (hfac : Arr3 ℚ) (z_edges : List ℚ) :
    bdry_from_hfac "draft" hfac z_edges = Except.ok (amap2 (fun ob => ob.getD 0)
      ((List.range hfac.length).foldl (bdry_step "draft" hfac z_edges
        (List.zipWith (· - ·) z_edges.dropLast z_edges.tail))
      (List.replicate ((hfac.headD []).length)
        (List.replicate (((hfac.headD []).headD []).length) none)))) := rfl

/-- Full per-column characterisation of bdry_from_hfac, shared by the scan
claims: the first nonzero cell met by the scan determines the output by the
documented formula, and an all-zero column yields 0. -/
theorem bdry_from_hfac_char (hfac : Arr3 ℚ) (z_edges : List ℚ) (j i : ℕ) (colv : ℕ → ℚ)
    (hj : j < (hfac.headD []).length)
    (hi : i < ((hfac.headD []).headD []).length)
    (hz : z_edges.length = hfac.length + 1)
    (hcol : ∀ k, k < hfac.length → o2 (hfac.getD k []) j i = some (colv k)) :
    (∀ k0, k0 < hfac.length → colv k0 ≠ 0 →
      (∀ k, k0 < k → k < hfac.length → colv k = 0) →
      ∃ bd, bdry_from_hfac "bathy" hfac z_edges = Except.ok bd ∧
        o2 bd j i = some (z_edges.getD k0 0 -
          (z_edges.getD k0 0 - z_edges.getD (k0 + 1) 0) * colv k0)) ∧
    (∀ k0, k0 < hfac.length → colv k0 ≠ 0 → (∀ k, k < k0 → colv k = 0) →
      ∃ bd, bdry_from_hfac "draft" hfac z_edges = Except.ok bd ∧
        o2 bd j i = some (z_edges.getD k0 0 -
          (z_edges.getD k0 0 - z_edges.getD (k0 + 1) 0) * (1 - colv k0))) ∧
    ((∀ k, k < hfac.length → colv k = 0) →
      ∃ bd bd2, bdry_from_hfac "bathy" hfac z_edges = Except.ok bd ∧
        bdry_from_hfac "draft" hfac z_edges = Except.ok bd2 ∧
        o2 bd j i = some 0 ∧ o2 bd2 j i = some 0) := by
  have hbdry0 : o2 (List.replicate ((hfac.headD []).length)
      (List.replicate (((hfac.headD []).headD []).length) (none : Option ℚ))) j i =
      some none := by
    rw [o2_replicate, if_pos (And.intro hj hi)]
  have hfold : ∀ (opt : String) (ks : List ℕ), (∀ k ∈ ks, k < hfac.length) →
      o2 (ks.foldl (bdry_step opt hfac z_edges
          (List.zipWith (· - ·) z_edges.dropLast z_edges.tail))
        (List.replicate ((hfac.headD []).length)
          (List.replicate (((hfac.headD []).headD []).length) none))) j i =
      some (ks.foldl (scan_step opt z_edges
          (List.zipWith (· - ·) z_edges.dropLast z_edges.tail) colv) none) := by
    intro opt ks hks
    exact o2_bdry_fold opt hfac z_edges _ colv j i ks
      (fun k hk => hcol k (hks k hk)) _ none hbdry0
  refine ⟨?_, ?_, ?_⟩
  · intro k0 hk0 hcnz hab
    refine ⟨_, bdry_from_hfac_eval_bathy hfac z_edges, ?_⟩
    rw [o2_amap2, hfold "bathy" (List.range hfac.length).reverse
      (by intro k hk; rw [List.mem_reverse, List.mem_range] at hk; exact hk)]
    rw [foldl_scan_none, find?_reverse_range hfac.length k0 _ hk0
      (decide_eq_true hcnz) (fun k h1 h2 => by simp [hab k h1 h2])]
    simp only [Option.map_some', Option.getD_some, if_true, eq_self_iff_true]
    rw [dz_getD_eq z_edges k0 (by omega)]
  · intro k0 hk0 hcnz hbe
    refine ⟨_, bdry_from_hfac_eval_draft hfac z_edges, ?_⟩
    rw [o2_amap2, hfold "draft" (List.range hfac.length)
      (by intro k hk; rw [List.mem_range] at hk; exact hk)]
    rw [foldl_scan_none, find?_range_least hfac.length k0 _ hk0
      (decide_eq_true hcnz) (fun k h1 => by simp [hbe k h1])]
    have hne : ("draft" : String) ≠ "bathy" := by decide
    simp only [Option.map_some', Option.getD_some, if_neg hne]
    rw [dz_getD_eq z_edges k0 (by omega)]
  · intro hall
    refine ⟨_, _, bdry_from_hfac_eval_bathy hfac z_edges,
      bdry_from_hfac_eval_draft hfac z_edges, ?_, ?_⟩
    · rw [o2_amap2, hfold "bathy" (List.range hfac.length).reverse
        (by intro k hk; rw [List.mem_reverse, List.mem_range] at hk; exact hk)]
      rw [foldl_scan_none]
      have : ((List.range hfac.length).reverse.find?
          (fun k => decide (colv k ≠ 0))) = none := by
        rw [List.find?_eq_none]
        intro x hx
        rw [List.mem_reverse, List.mem_range] at hx
        simp [hall x hx]
      rw [this]
      rfl
    · rw [o2_amap2, hfold "draft" (List.range hfac.length)
        (by intro k hk; rw [List.mem_range] at hk; exact hk)]
      rw [foldl_scan_none]
      have : ((List.range hfac.length).find? (fun k => decide (colv k ≠ 0))) = none := by
        rw [List.find?_eq_none]
        intro x hx
        rw [List.mem_range] at hx
        simp [hall x hx]
      rw [this]
      rfl

/-- Claim C4: bdry_from_hfac scans each column bottom-up for bathymetry and
top-down for draft; the first cell with nonzero fraction determines the
output as z_edges[k] - dz[k]*hfac for bathymetry and z_edges[k] - dz[k]*(1-hfac)
for draft, with dz[k] = z_edges[k] - z_edges[k+1]; a column with no nonzero
fraction yields 0, never an unassigned sentinel. -/
theorem bdry_from_hfac_scan_spec (hfac : Arr3 ℚ) (z_edges : List ℚ) (j i : ℕ)
    (colv : ℕ → ℚ) (hj : j < (hfac.headD []).length)
    (hi : i < ((hfac.headD []).headD []).length)
    (hz : z_edges.length = hfac.length + 1)
    (hcol : ∀ k, k < hfac.length → o2 (hfac.getD k []) j i = some (colv k)) :
    (∀ k0, k0 < hfac.length → colv k0 ≠ 0 →
      (∀ k, k0 < k → k < hfac.length → colv k = 0) →
      ∃ bd, bdry_from_hfac "bathy" hfac z_edges = Except.ok bd ∧
        o2 bd j i = some (z_edges.getD k0 0 -
          (z_edges.getD k0 0 - z_edges.getD (k0 + 1) 0) * colv k0)) ∧
    (∀ k0, k0 < hfac.length → colv k0 ≠ 0 → (∀ k, k < k0 → colv k = 0) →
      ∃ bd, bdry_from_hfac "draft" hfac z_edges = Except.ok bd ∧
        o2 bd j i = some (z_edges.getD k0 0 -
          (z_edges.getD k0 0 - z_edges.getD (k0 + 1) 0) * (1 - colv k0))) ∧
    ((∀ k, k < hfac.length → colv k = 0) →
      ∃ bd bd2, bdry_from_hfac "bathy" hfac z_edges = Except.ok bd ∧
        bdry_from_hfac "draft" hfac z_edges = Except.ok bd2 ∧
        o2 bd j i = some 0 ∧ o2 bd2 j i = some 0) :=
  bdry_from_hfac_char hfac z_edges j i colv hj hi hz hcol

/-- Claim C4, witness: a two-level column with a closed bottom cell and an
open top cell. -/
theorem bdry_from_hfac_scan_spec_witness :
    ∃ bd, bdry_from_hfac "bathy" [[[1]], [[0]]] [0, -10, -20] = Except.ok bd ∧
      o2 bd 0 0 = some (([0, -10, -20] : List ℚ).getD 0 0 -
        (([0, -10, -20] : List ℚ).getD 0 0 - ([0, -10, -20] : List ℚ).getD 1 0) * 1) := by
  have h := bdry_from_hfac_scan_spec [[[1]], [[0]]] [0, -10, -20] 0 0
    (fun k => if k = 0 then 1 else 0) (by decide) (by decide) (by decide)
    (by intro k hk
        have hk2 : k < 2 := by simpa using hk
        interval_cases k <;> decide)
  exact h.1 0 (by decide) (by decide)
    (by intro k h1 h2
        have hk2 : k < 2 := by simpa using h2
        interval_cases k <;> simp_all)

/-- Largest cell thickness of a vertical interface array, with the same
thickness convention as bdry_from_hfac. -/
def max_dz (z_edges : List ℚ) : ℚ :=
  (List.zipWith (· - ·) z_edges.dropLast z_edges.tail).foldr max 0

theorem le_foldr_max (l : List ℚ) (x : ℚ) (hx : x ∈ l) : x ≤ l.foldr max 0 := by
  induction l with
  | nil => simp at hx
  | cons a l ih =>
    rcases List.mem_cons.mp hx with h | h
    · rw [h, List.foldr_cons]
      exact le_max_left _ _
    · rw [List.foldr_cons]
      exact le_trans (ih h) (le_max_right _ _)

theorem foldr_max_nonneg (l : List ℚ) : 0 ≤ l.foldr max 0 := by
  induction l with
  | nil => simp
  | cons a l ih => exact le_trans ih (le_max_right _ _)

theorem dz_le_max_dz (z_edges : List ℚ) (k : ℕ) (h : k + 1 < z_edges.length) :
    z_edges.getD k 0 - z_edges.getD (k + 1) 0 ≤ max_dz z_edges := by
  rw [← dz_getD_eq z_edges k h]
  unfold max_dz
  have hlen : k < (List.zipWith (· - ·) z_edges.dropLast z_edges.tail).length := by
    rw [List.length_zipWith, List.length_dropLast, List.length_tail]
    omega
  rw [List.getD_eq_getElem?_getD, List.getElem?_eq_getElem hlen, Option.getD_some]
  exact le_foldr_max _ _ (List.getElem_mem hlen)

theorem hfac_limit_pos (m dr dz : ℚ) (hm : 0 < m) : 0 < hfac_limit m dr dz :=
  lt_of_lt_of_le hm (le_max_left _ _)

theorem hfac_limit_le_one (m dr dz : ℚ) (hm : m ≤ 1) : hfac_limit m dr dz ≤ 1 :=
  max_le hm (min_le_right _ _)

/-- A nonzero floored fraction is either the floor itself (raw fraction in the
snap interval) or the unchanged raw fraction at or above the floor. -/
theorem hfac_cell_ne_zero_cases (b d za zb m dr : ℚ)
    (h : hfac_cell b d za zb m dr ≠ 0) :
    (hfac_cell b d za zb m dr = hfac_limit m dr |zb - za| ∧
      hfac_limit m dr |zb - za| / 2 ≤ hfac_cell_raw b d za zb ∧
      hfac_cell_raw b d za zb < hfac_limit m dr |zb - za|) ∨
    (hfac_cell b d za zb m dr = hfac_cell_raw b d za zb ∧
      hfac_limit m dr |zb - za| ≤ hfac_cell_raw b d za zb) := by
  rw [hfac_cell_eq_floor_cases] at h ⊢
  by_cases h1 : hfac_cell_raw b d za zb < hfac_limit m dr |zb - za| / 2
  · simp [h1] at h
  · by_cases h2 : hfac_cell_raw b d za zb < hfac_limit m dr |zb - za|
    · exact Or.inl ⟨by simp [h1, h2], le_of_not_lt h1, h2⟩
    · exact Or.inr ⟨by simp [h1, h2], le_of_not_lt h2⟩

/-- A floored fraction equal to zero means the raw fraction was below half the
floor, provided the floor is positive. -/
theorem hfac_cell_eq_zero_raw (b d za zb m dr : ℚ)
    (h : hfac_cell b d za zb m dr = 0) (hlim : 0 < hfac_limit m dr |zb - za|) :
    hfac_cell_raw b d za zb < hfac_limit m dr |zb - za| / 2 := by
  rw [hfac_cell_eq_floor_cases] at h
  by_cases h1 : hfac_cell_raw b d za zb < hfac_limit m dr |zb - za| / 2
  · exact h1
  · by_cases h2 : hfac_cell_raw b d za zb < hfac_limit m dr |zb - za|
    · rw [if_neg h1, if_pos h2] at h
      exact absurd h (ne_of_gt hlim)
    · rw [if_neg h1, if_neg h2] at h
      rw [h] at h2
      exact absurd hlim (not_lt.mpr (le_of_not_lt h2))

/-- Core arithmetic bound: the gap left open in a cell kept at or above its
floor, plus the sliver hidden in the zeroed cell beyond it, never exceeds the
largest cell thickness. -/
theorem floor_gap_bound (M dz0 dz1 m dr x y : ℚ)
    (hdz0 : 0 < dz0) (hdz1 : 0 < dz1) (hM0 : dz0 ≤ M) (hM1 : dz1 ≤ M)
    (hm0 : 0 < m) (hm1 : m ≤ 1)
    (hx : 0 ≤ x) (hxb : x ≤ dz0 * (1 - hfac_limit m dr dz0))
    (hy : 0 ≤ y) (hyb : y ≤ dz1 * hfac_limit m dr dz1 / 2) :
    x + y ≤ M := by
  have hl0le : hfac_limit m dr dz0 ≤ 1 := hfac_limit_le_one m dr dz0 hm1
  have hl1le : hfac_limit m dr dz1 ≤ 1 := hfac_limit_le_one m dr dz1 hm1
  have hl1pos : 0 < hfac_limit m dr dz1 := hfac_limit_pos m dr dz1 hm0
  by_cases h1 : 1 ≤ dr / dz0
  · -- target thickness dominates the first cell, its floor is 1, no gap
    have hlim0 : hfac_limit m dr dz0 = 1 := by
      unfold hfac_limit
      rw [min_eq_right h1]
      exact max_eq_right hm1
    rw [hlim0] at hxb
    have hx0 : x ≤ 0 := by linarith
    have : y ≤ dz1 / 2 := by
      calc y ≤ dz1 * hfac_limit m dr dz1 / 2 := hyb
        _ ≤ dz1 * 1 / 2 := by
          have := mul_le_mul_of_nonneg_left hl1le (le_of_lt hdz1)
          linarith
        _ = dz1 / 2 := by ring
    linarith
  · push_neg at h1
    have hdr0 : dr < dz0 := by
      have := (div_lt_one hdz0).mp h1
      linarith
    have hL0dr : dr ≤ dz0 * hfac_limit m dr dz0 := by
      have hmin : min (dr / dz0) 1 = dr / dz0 := min_eq_left (le_of_lt h1)
      have : dr / dz0 ≤ hfac_limit m dr dz0 := by
        unfold hfac_limit
        rw [hmin]
        exact le_max_right _ _
      calc dr = dz0 * (dr / dz0) := by field_simp
        _ ≤ dz0 * hfac_limit m dr dz0 := mul_le_mul_of_nonneg_left this (le_of_lt hdz0)
    have hL0m : dz0 * m ≤ dz0 * hfac_limit m dr dz0 :=
      mul_le_mul_of_nonneg_left (le_max_left _ _) (le_of_lt hdz0)
    by_cases h2 : 1 ≤ dr / dz1
    · -- second cell thinner than the target thickness: its floor is 1
      have hdz1dr : dz1 ≤ dr := by
        have := (one_le_div hdz1).mp h2
        linarith
      have : y ≤ dr / 2 := by
        calc y ≤ dz1 * hfac_limit m dr dz1 / 2 := hyb
          _ ≤ dz1 * 1 / 2 := by
            have := mul_le_mul_of_nonneg_left hl1le (le_of_lt hdz1)
            linarith
          _ ≤ dr / 2 := by linarith
      linarith
    · push_neg at h2
      have hdr1 : dr < dz1 := by
        have := (div_lt_one hdz1).mp h2
        linarith
      have hmin1 : min (dr / dz1) 1 = dr / dz1 := min_eq_left (le_of_lt h2)
      by_cases h3 : m ≤ dr / dz1
      · -- the absolute-thickness floor governs the second cell
        have hlim1 : hfac_limit m dr dz1 = dr / dz1 := by
          unfold hfac_limit
          rw [hmin1]
          exact max_eq_right h3
        have hy2 : y ≤ dr / 2 := by
          rw [hlim1] at hyb
          have : dz1 * (dr / dz1) = dr := by field_simp
          linarith [hyb, this.symm.le, this.le]
        have hdrpos : 0 ≤ dr := by
          have hq : 0 ≤ dr / dz1 := le_trans (le_of_lt hm0) h3
          by_contra hc
          push_neg at hc
          exact absurd (div_neg_of_neg_of_pos hc hdz1) (not_lt.mpr hq)
        linarith
      · -- the fractional floor m governs the second cell
        push_neg at h3
        have hlim1 : hfac_limit m dr dz1 = m := by
          unfold hfac_limit
          rw [hmin1]
          exact max_eq_left (le_of_lt h3)
        have hy2 : y ≤ dz1 * m / 2 := by rw [hlim1] at hyb; linarith
        have hx2 : x ≤ dz0 * (1 - m) := by
          have : dz0 * (1 - hfac_limit m dr dz0) ≤ dz0 * (1 - m) := by
            have h := hL0m
            nlinarith
          linarith
        have hys : dz1 * m / 2 ≤ M * m / 2 := by nlinarith
        have hxs : dz0 * (1 - m) ≤ M * (1 - m) := by nlinarith
        nlinarith

theorem length_zipWith3L (f : α → β → γ → δ) (as : List α) (bs : List β)
    (cs : List γ) :
    (zipWith3L f as bs cs).length = min as.length (min bs.length cs.length) := by
  induction as generalizing bs cs with
  | nil => cases bs <;> cases cs <;> simp [zipWith3L]
  | cons a as ih =>
    cases bs with
    | nil => simp [zipWith3L]
    | cons b bs =>
      cases cs with
      | nil => simp [zipWith3L]
      | cons w cs =>
        simp [zipWith3L, ih]
        omega

/-- Number of vertical levels of the hfac array: one fewer than the interface
array, whatever the horizontal shapes are. -/
theorem calc_hfac_length (bathy draft : Arr2 ℚ) (z_edges : List ℚ) (m dr : ℚ)
    (g : String) :
    (calc_hfac bathy draft z_edges m dr g).length = z_edges.length - 1 := by
  simp only [calc_hfac, azip3, azip3w, amap3, amap2, xy_to_xyz, z_to_xyz,
    length_zipWith3L, List.length_zipWith, List.length_replicate, List.length_map,
    List.length_tail, List.length_dropLast, List.getD_cons_zero, List.getD_cons_succ,
    min_self, Nat.min_self]

theorem o2_eq_getD (a : Arr2 ℚ) (j i : ℕ) (hj : j < a.length)
    (hi : i < (a.getD j []).length) :
    o2 a j i = some ((a.getD j []).getD i 0) := by
  have hgj : a.getD j [] = a[j] := by
    rw [List.getD_eq_getElem?_getD, List.getElem?_eq_getElem hj, Option.getD_some]
  rw [hgj] at hi ⊢
  have hgi : (a[j]).getD i 0 = a[j][i] := by
    rw [List.getD_eq_getElem?_getD, List.getElem?_eq_getElem hi, Option.getD_some]
  rw [hgi]
  unfold o2
  rw [List.getElem?_eq_getElem hj, Option.some_bind, List.getElem?_eq_getElem hi]

/-- Index bounds for the head slice of a 3D array, recovered from two defined
pointwise accesses. -/
theorem o3_zero_bounds (a : Arr3 ℚ) (j i : ℕ) (v w : ℚ)
    (h1 : o3 a 0 j i = some v) (h2 : o3 a 0 0 i = some w) :
    j < (a.headD []).length ∧ i < ((a.headD []).headD []).length := by
  cases a with
  | nil => simp [o3, o2] at h1
  | cons s rest =>
    simp only [o3, List.getElem?_cons_zero, Option.some_bind, List.headD_cons] at h1 h2 ⊢
    unfold o2 at h1 h2
    constructor
    · rcases hjq : s[j]? with _ | row
      · rw [hjq] at h1
        simp at h1
      · exact (List.getElem?_eq_some_iff.mp hjq).1
    · cases s with
      | nil => simp at h2
      | cons r rs =>
        simp only [List.getElem?_cons_zero, Option.some_bind, List.headD_cons] at h2 ⊢
        exact (List.getElem?_eq_some_iff.mp h2).1

theorem bathy_col_bound (z_edges : List ℚ) (b d m dr : ℚ) (k0 : ℕ)
    (hdec : ∀ t, t + 1 < z_edges.length → z_edges.getD (t + 1) 0 < z_edges.getD t 0)
    (hm0 : 0 < m) (hm1 : m ≤ 1) (hbd : b ≤ d)
    (hbbot : z_edges.getD (z_edges.length - 1) 0 ≤ b)
    (hk0 : k0 < z_edges.length - 1)
    (hnzk : hfac_cell b d (z_edges.getD k0 0) (z_edges.getD (k0 + 1) 0) m dr ≠ 0)
    (hab : ∀ k, k0 < k → k < z_edges.length - 1 →
      hfac_cell b d (z_edges.getD k 0) (z_edges.getD (k + 1) 0) m dr = 0) :
    |z_edges.getD k0 0 - (z_edges.getD k0 0 - z_edges.getD (k0 + 1) 0) *
        hfac_cell b d (z_edges.getD k0 0) (z_edges.getD (k0 + 1) 0) m dr - b| ≤
      max_dz z_edges := by
  set A := z_edges.getD k0 0 with hA
  set B := z_edges.getD (k0 + 1) 0 with hB
  have hk1 : k0 + 1 < z_edges.length := by omega
  have hdz0 : 0 < A - B := sub_pos.mpr (hdec k0 hk1)
  have habs0 : |B - A| = A - B := by rw [abs_of_neg (by linarith)]; ring
  have hM0 : A - B ≤ max_dz z_edges := dz_le_max_dz z_edges k0 hk1
  have hM0pos : 0 < max_dz z_edges := lt_of_lt_of_le hdz0 hM0
  have hcases := hfac_cell_ne_zero_cases b d A B m dr hnzk
  rw [habs0] at hcases
  set lim0 := hfac_limit m dr (A - B) with hlim0def
  have hl0pos : 0 < lim0 := hfac_limit_pos m dr _ hm0
  have hl0le : lim0 ≤ 1 := hfac_limit_le_one m dr _ hm1
  have hBb : b ≤ B → B ≤ d → (B - b = 0 ∨
      (k0 + 2 < z_edges.length ∧ 0 ≤ B - b ∧
        B - b ≤ (B - z_edges.getD (k0 + 2) 0) *
          hfac_limit m dr (B - z_edges.getD (k0 + 2) 0) / 2)) := by
    intro hbB hBd
    by_cases hend : k0 + 1 < z_edges.length - 1
    · right
      have hk2 : k0 + 2 < z_edges.length := by omega
      have hdz1 : 0 < B - z_edges.getD (k0 + 2) 0 := sub_pos.mpr (hdec (k0 + 1) hk2)
      have habs1 : |z_edges.getD (k0 + 2) 0 - B| = B - z_edges.getD (k0 + 2) 0 := by
        rw [abs_of_neg (by linarith)]; ring
      have hz1 := hab (k0 + 1) (by omega) hend
      have hl1pos : 0 < hfac_limit m dr |z_edges.getD (k0 + 2) 0 - B| :=
        hfac_limit_pos m dr _ hm0
      have hraw1 := hfac_cell_eq_zero_raw b d B (z_edges.getD (k0 + 2) 0) m dr hz1 hl1pos
      rw [habs1] at hraw1
      have hl1le : hfac_limit m dr (B - z_edges.getD (k0 + 2) 0) ≤ 1 :=
        hfac_limit_le_one m dr _ hm1
      rcases le_or_lt b (z_edges.getD (k0 + 2) 0) with hbB2 | hbB2
      · rw [hfac_cell_raw_full b d B (z_edges.getD (k0 + 2) 0) hbB2 hBd] at hraw1
        linarith
      · rw [hfac_cell_raw_bathy b d B (z_edges.getD (k0 + 2) 0) hbB2 hBd, habs1] at hraw1
        refine ⟨hk2, by linarith, ?_⟩
        rw [div_lt_iff hdz1] at hraw1
        linarith
    · left
      have hk1e : z_edges.length - 1 = k0 + 1 := by omega
      rw [hk1e, ← hB] at hbbot
      linarith
  rcases le_or_lt b B with hbB | hbB <;> rcases le_or_lt A d with hAd | hAd
  · -- fully open cell
    have hraw : hfac_cell_raw b d A B = 1 := hfac_cell_raw_full b d A B hbB hAd
    have hBd : B ≤ d := by linarith
    rcases hcases with ⟨hcol, hge, hlt⟩ | ⟨hcol, hge⟩
    · rw [hraw] at hlt; linarith
    · rw [hcol, hraw, show A - (A - B) * 1 - b = B - b from by ring,
        abs_of_nonneg (by linarith)]
      rcases hBb hbB hBd with h0 | ⟨hk2, hy0, hyb⟩
      · linarith
      · have hdz1 : 0 < B - z_edges.getD (k0 + 2) 0 := sub_pos.mpr (hdec (k0 + 1) hk2)
        have hM1 : B - z_edges.getD (k0 + 2) 0 ≤ max_dz z_edges :=
          dz_le_max_dz z_edges (k0 + 1) hk2
        have := floor_gap_bound (max_dz z_edges) (A - B) (B - z_edges.getD (k0 + 2) 0)
          m dr 0 (B - b) hdz0 hdz1 hM0 hM1 hm0 hm1 le_rfl
          (mul_nonneg (le_of_lt hdz0) (by linarith)) hy0 hyb
        linarith
  · -- draft-truncated cell
    have hraw : hfac_cell_raw b d A B = (d - B) / (A - B) := by
      rw [hfac_cell_raw_draft b d A B hbB hAd, habs0]
    set rw0 := (d - B) / (A - B) with hrw0
    have hprod : (A - B) * rw0 = d - B := by rw [hrw0]; field_simp
    rcases hcases with ⟨hcol, hge, hlt⟩ | ⟨hcol, hge⟩
    · rw [hraw] at hge hlt
      have hBd : B < d := by
        by_contra hc
        push_neg at hc
        have hnp : rw0 ≤ 0 := div_nonpos_of_nonpos_of_nonneg (by linarith) (le_of_lt hdz0)
        linarith
      rw [hcol]
      have hone : 0 ≤ (A - B) * (1 - lim0) := mul_nonneg (le_of_lt hdz0) (by linarith)
      have hvb : A - (A - B) * lim0 - b = (A - B) * (1 - lim0) + (B - b) := by ring
      rw [hvb, abs_of_nonneg (by linarith)]
      rcases hBb hbB (le_of_lt hBd) with h0 | ⟨hk2, hy0, hyb⟩
      · have hsq : (A - B) * (1 - lim0) ≤ A - B := by nlinarith
        linarith
      · have hdz1 : 0 < B - z_edges.getD (k0 + 2) 0 := sub_pos.mpr (hdec (k0 + 1) hk2)
        have hM1 : B - z_edges.getD (k0 + 2) 0 ≤ max_dz z_edges :=
          dz_le_max_dz z_edges (k0 + 1) hk2
        exact floor_gap_bound (max_dz z_edges) (A - B) (B - z_edges.getD (k0 + 2) 0)
          m dr ((A - B) * (1 - lim0)) (B - b) hdz0 hdz1 hM0 hM1 hm0 hm1 hone le_rfl hy0 hyb
    · rw [hraw] at hge
      have hBd : B < d := by
        by_contra hc
        push_neg at hc
        have hnp : rw0 ≤ 0 := div_nonpos_of_nonpos_of_nonneg (by linarith) (le_of_lt hdz0)
        linarith
      have hrlt1 : rw0 < 1 := by
        rw [hrw0, div_lt_one hdz0]
        linarith
      rw [hcol, hraw]
      have hx0 : 0 ≤ (A - B) * (1 - rw0) := mul_nonneg (le_of_lt hdz0) (by linarith)
      have hxb : (A - B) * (1 - rw0) ≤ (A - B) * (1 - lim0) :=
        mul_le_mul_of_nonneg_left (by linarith) (le_of_lt hdz0)
      have hvb : A - (A - B) * rw0 - b = (A - B) * (1 - rw0) + (B - b) := by ring
      rw [hvb, abs_of_nonneg (by linarith)]
      rcases hBb hbB (le_of_lt hBd) with h0 | ⟨hk2, hy0, hyb⟩
      · have hsq : (A - B) * (1 - lim0) ≤ A - B := by nlinarith
        linarith
      · have hdz1 : 0 < B - z_edges.getD (k0 + 2) 0 := sub_pos.mpr (hdec (k0 + 1) hk2)
        have hM1 : B - z_edges.getD (k0 + 2) 0 ≤ max_dz z_edges :=
          dz_le_max_dz z_edges (k0 + 1) hk2
        exact floor_gap_bound (max_dz z_edges) (A - B) (B - z_edges.getD (k0 + 2) 0)
          m dr ((A - B) * (1 - rw0)) (B - b) hdz0 hdz1 hM0 hM1 hm0 hm1 hx0 hxb hy0 hyb
  · -- bathymetry-truncated cell
    have hraw : hfac_cell_raw b d A B = (A - b) / (A - B) := by
      rw [hfac_cell_raw_bathy b d A B hbB hAd, habs0]
    set rw0 := (A - b) / (A - B) with hrw0
    have hprod : (A - B) * rw0 = A - b := by rw [hrw0]; field_simp
    rcases hcases with ⟨hcol, hge, hlt⟩ | ⟨hcol, hge⟩
    · rw [hraw] at hge hlt
      rw [hcol, abs_le]
      have h1 : (A - B) * (lim0 / 2) ≤ (A - B) * rw0 :=
        mul_le_mul_of_nonneg_left hge (le_of_lt hdz0)
      have h2 : (A - B) * lim0 ≤ (A - B) * 1 :=
        mul_le_mul_of_nonneg_left hl0le (le_of_lt hdz0)
      have h3 : (A - B) * rw0 < (A - B) * lim0 :=
        mul_lt_mul_of_pos_left hlt hdz0
      constructor
      · linarith [hprod]
      · linarith [hprod]
    · rw [hraw] at hge
      rw [hcol, hraw, show A - (A - B) * rw0 - b = (A - b) - (A - B) * rw0 from by ring,
        hprod, sub_self, abs_zero]
      linarith
  · -- both-truncated cell
    have hraw : hfac_cell_raw b d A B = (d - b) / (A - B) := by
      rw [hfac_cell_raw_both b d A B hbB hAd, habs0]
    set rw0 := (d - b) / (A - B) with hrw0
    have hprod : (A - B) * rw0 = d - b := by rw [hrw0]; field_simp
    have hAb : A - b < A - B := by linarith
    have hAbpos : 0 < A - b := by linarith
    rcases hcases with ⟨hcol, hge, hlt⟩ | ⟨hcol, hge⟩
    · rw [hraw] at hge hlt
      rw [hcol, abs_le]
      have h1 : (A - B) * (lim0 / 2) ≤ (A - B) * rw0 :=
        mul_le_mul_of_nonneg_left hge (le_of_lt hdz0)
      have h2 : (A - B) * lim0 ≤ (A - B) * 1 :=
        mul_le_mul_of_nonneg_left hl0le (le_of_lt hdz0)
      have h3 : 0 < (A - B) * lim0 := mul_pos hdz0 hl0pos
      constructor
      · linarith [hprod]
      · linarith [hprod]
    · rw [hraw] at hge
      rw [hcol, hraw, show A - (A - B) * rw0 - b = (A - b) - (A - B) * rw0 from by ring,
        hprod, show (A - b) - (d - b) = A - d from by ring,
        abs_of_nonneg (by linarith)]
      linarith

theorem bathy_col_exact (z_edges : List ℚ) (b d m dr : ℚ) (k0 : ℕ)
    (hdec : ∀ t, t + 1 < z_edges.length → z_edges.getD (t + 1) 0 < z_edges.getD t 0)
    (hbbot : z_edges.getD (z_edges.length - 1) 0 ≤ b)
    (hk0 : k0 < z_edges.length - 1)
    (hab : ∀ k, k0 < k → k < z_edges.length - 1 →
      hfac_cell b d (z_edges.getD k 0) (z_edges.getD (k + 1) 0) m dr = 0)
    (hnofloor : ∀ k, k < z_edges.length - 1 →
      hfac_cell b d (z_edges.getD k 0) (z_edges.getD (k + 1) 0) m dr =
        hfac_cell_raw b d (z_edges.getD k 0) (z_edges.getD (k + 1) 0))
    (hAd : z_edges.getD k0 0 ≤ d) :
    z_edges.getD k0 0 - (z_edges.getD k0 0 - z_edges.getD (k0 + 1) 0) *
        hfac_cell b d (z_edges.getD k0 0) (z_edges.getD (k0 + 1) 0) m dr = b := by
  set A := z_edges.getD k0 0 with hA
  set B := z_edges.getD (k0 + 1) 0 with hB
  have hk1 : k0 + 1 < z_edges.length := by omega
  have hdz0 : 0 < A - B := sub_pos.mpr (hdec k0 hk1)
  have habs0 : |B - A| = A - B := by rw [abs_of_neg (by linarith)]; ring
  rw [hnofloor k0 hk0]
  rcases le_or_lt b B with hbB | hbB
  · -- fully open cell: its bottom interface must coincide with the bathymetry
    rw [hfac_cell_raw_full b d A B hbB hAd]
    have hBb : B = b := by
      by_cases hend : k0 + 1 < z_edges.length - 1
      · have hk2 : k0 + 2 < z_edges.length := by omega
        have hdz1 : 0 < B - z_edges.getD (k0 + 2) 0 := sub_pos.mpr (hdec (k0 + 1) hk2)
        have habs1 : |z_edges.getD (k0 + 2) 0 - B| = B - z_edges.getD (k0 + 2) 0 := by
          rw [abs_of_neg (by linarith)]; ring
        have hz1 := hab (k0 + 1) (by omega) hend
        rw [hnofloor (k0 + 1) hend] at hz1
        have hBd : B ≤ d := by linarith
        rcases le_or_lt b (z_edges.getD (k0 + 2) 0) with hbB2 | hbB2
        · rw [hfac_cell_raw_full b d B (z_edges.getD (k0 + 2) 0) hbB2 hBd] at hz1
          norm_num at hz1
        · rw [hfac_cell_raw_bathy b d B (z_edges.getD (k0 + 2) 0) hbB2 hBd, habs1] at hz1
          have := div_eq_zero_iff.mp hz1
          rcases this with h | h
          · linarith
          · linarith
      · have hk1e : z_edges.length - 1 = k0 + 1 := by omega
        rw [hk1e, ← hB] at hbbot
        linarith
    rw [hBb]
    ring
  · -- bathymetry-truncated cell: the scan formula inverts the fraction exactly
    rw [hfac_cell_raw_bathy b d A B hbB hAd, habs0]
    field_simp

theorem draft_col_bound (z_edges : List ℚ) (b d m dr : ℚ) (k0 : ℕ)
    (hdec : ∀ t, t + 1 < z_edges.length → z_edges.getD (t + 1) 0 < z_edges.getD t 0)
    (hm0 : 0 < m) (hm1 : m ≤ 1) (hbd : b ≤ d)
    (hdtop : d ≤ z_edges.getD 0 0)
    (hk0 : k0 < z_edges.length - 1)
    (hnzk : hfac_cell b d (z_edges.getD k0 0) (z_edges.getD (k0 + 1) 0) m dr ≠ 0)
    (hbe : ∀ k, k < k0 →
      hfac_cell b d (z_edges.getD k 0) (z_edges.getD (k + 1) 0) m dr = 0) :
    |z_edges.getD k0 0 - (z_edges.getD k0 0 - z_edges.getD (k0 + 1) 0) *
        (1 - hfac_cell b d (z_edges.getD k0 0) (z_edges.getD (k0 + 1) 0) m dr) - d| ≤
      max_dz z_edges := by
  set A := z_edges.getD k0 0 with hA
  set B := z_edges.getD (k0 + 1) 0 with hB
  have hk1 : k0 + 1 < z_edges.length := by omega
  have hdz0 : 0 < A - B := sub_pos.mpr (hdec k0 hk1)
  have habs0 : |B - A| = A - B := by rw [abs_of_neg (by linarith)]; ring
  have hM0 : A - B ≤ max_dz z_edges := dz_le_max_dz z_edges k0 hk1
  have hM0pos : 0 < max_dz z_edges := lt_of_lt_of_le hdz0 hM0
  have hcases := hfac_cell_ne_zero_cases b d A B m dr hnzk
  rw [habs0] at hcases
  set lim0 := hfac_limit m dr (A - B) with hlim0def
  have hl0pos : 0 < lim0 := hfac_limit_pos m dr _ hm0
  have hl0le : lim0 ≤ 1 := hfac_limit_le_one m dr _ hm1
  have hDd : b ≤ A → A ≤ d → (d - A = 0 ∨
      (0 < k0 ∧ 0 ≤ d - A ∧
        d - A ≤ (z_edges.getD (k0 - 1) 0 - A) *
          hfac_limit m dr (z_edges.getD (k0 - 1) 0 - A) / 2)) := by
    intro hbA hAd
    rcases Nat.eq_zero_or_pos k0 with h0 | hpos
    · left
      have hA0 : A = z_edges.getD 0 0 := by rw [hA, h0]
      linarith
    · right
      have hk1m : (k0 - 1) + 1 < z_edges.length := by omega
      have hidx : k0 - 1 + 1 = k0 := by omega
      have hdz2 : 0 < z_edges.getD (k0 - 1) 0 - A := by
        have hlt := hdec (k0 - 1) hk1m
        rw [hidx, ← hA] at hlt
        linarith
      have habs2 : |A - z_edges.getD (k0 - 1) 0| = z_edges.getD (k0 - 1) 0 - A := by
        rw [abs_of_neg (by linarith)]; ring
      have hz2 := hbe (k0 - 1) (by omega)
      rw [hidx, ← hA] at hz2
      have hl2pos : 0 < hfac_limit m dr |A - z_edges.getD (k0 - 1) 0| :=
        hfac_limit_pos m dr _ hm0
      have hraw2 := hfac_cell_eq_zero_raw b d (z_edges.getD (k0 - 1) 0) A m dr hz2 hl2pos
      rw [habs2] at hraw2
      have hl2le : hfac_limit m dr (z_edges.getD (k0 - 1) 0 - A) ≤ 1 :=
        hfac_limit_le_one m dr _ hm1
      rcases le_or_lt (z_edges.getD (k0 - 1) 0) d with hA2d | hA2d
      · rw [hfac_cell_raw_full b d (z_edges.getD (k0 - 1) 0) A hbA hA2d] at hraw2
        linarith
      · rw [hfac_cell_raw_draft b d (z_edges.getD (k0 - 1) 0) A hbA hA2d, habs2] at hraw2
        refine ⟨hpos, by linarith, ?_⟩
        rw [div_lt_iff hdz2] at hraw2
        linarith
  rcases le_or_lt b B with hbB | hbB <;> rcases le_or_lt A d with hAd | hAd
  · -- fully open cell
    have hraw : hfac_cell_raw b d A B = 1 := hfac_cell_raw_full b d A B hbB hAd
    have hbA : b ≤ A := by linarith
    rcases hcases with ⟨hcol, hge, hlt⟩ | ⟨hcol, hge⟩
    · rw [hraw] at hlt; linarith
    · rw [hcol, hraw, show A - (A - B) * (1 - 1) - d = -(d - A) from by ring, abs_neg,
        abs_of_nonneg (by linarith)]
      rcases hDd hbA hAd with h0 | ⟨hpos, hy0, hyb⟩
      · linarith
      · have hk1m : (k0 - 1) + 1 < z_edges.length := by omega
        have hidx : k0 - 1 + 1 = k0 := by omega
        have hdz2 : 0 < z_edges.getD (k0 - 1) 0 - A := by
          have hlt2 := hdec (k0 - 1) hk1m
          rw [hidx, ← hA] at hlt2
          linarith
        have hM1 : z_edges.getD (k0 - 1) 0 - A ≤ max_dz z_edges := by
          have := dz_le_max_dz z_edges (k0 - 1) hk1m
          rw [hidx, ← hA] at this
          exact this
        have := floor_gap_bound (max_dz z_edges) (A - B) (z_edges.getD (k0 - 1) 0 - A)
          m dr 0 (d - A) hdz0 hdz2 hM0 hM1 hm0 hm1 le_rfl
          (mul_nonneg (le_of_lt hdz0) (by linarith)) hy0 hyb
        linarith
  · -- draft-truncated cell
    have hraw : hfac_cell_raw b d A B = (d - B) / (A - B) := by
      rw [hfac_cell_raw_draft b d A B hbB hAd, habs0]
    set rw0 := (d - B) / (A - B) with hrw0
    have hprod : (A - B) * rw0 = d - B := by rw [hrw0]; field_simp
    rcases hcases with ⟨hcol, hge, hlt⟩ | ⟨hcol, hge⟩
    · rw [hraw] at hge hlt
      rw [hcol, abs_le]
      have h1 : (A - B) * (lim0 / 2) ≤ (A - B) * rw0 :=
        mul_le_mul_of_nonneg_left hge (le_of_lt hdz0)
      have h2 : (A - B) * lim0 ≤ (A - B) * 1 :=
        mul_le_mul_of_nonneg_left hl0le (le_of_lt hdz0)
      have h3 : (A - B) * rw0 < (A - B) * lim0 :=
        mul_lt_mul_of_pos_left hlt hdz0
      constructor
      · linarith [hprod]
      · linarith [hprod]
    · rw [hraw] at hge
      rw [hcol, hraw, show A - (A - B) * (1 - rw0) - d = (A - B) * rw0 - (d - B) from by
          ring, hprod, sub_self, abs_zero]
      linarith
  · -- bathymetry-truncated cell
    have hraw : hfac_cell_raw b d A B = (A - b) / (A - B) := by
      rw [hfac_cell_raw_bathy b d A B hbB hAd, habs0]
    set rw0 := (A - b) / (A - B) with hrw0
    have hprod : (A - B) * rw0 = A - b := by rw [hrw0]; field_simp
    rcases hcases with ⟨hcol, hge, hlt⟩ | ⟨hcol, hge⟩
    · rw [hraw] at hge hlt
      have hbA : b < A := by
        by_contra hc
        push_neg at hc
        have hnp : rw0 ≤ 0 := div_nonpos_of_nonpos_of_nonneg (by linarith) (le_of_lt hdz0)
        linarith
      rw [hcol]
      have hone : 0 ≤ (A - B) * (1 - lim0) := mul_nonneg (le_of_lt hdz0) (by linarith)
      have hvb : A - (A - B) * (1 - lim0) - d = -((A - B) * (1 - lim0) + (d - A)) := by ring
      rw [hvb, abs_neg]
      rcases hDd (le_of_lt hbA) hAd with h0 | ⟨hpos, hy0, hyb⟩
      · rw [abs_of_nonneg (by linarith)]
        have hsq : (A - B) * (1 - lim0) ≤ A - B := by nlinarith
        linarith
      · rw [abs_of_nonneg (by linarith)]
        have hk1m : (k0 - 1) + 1 < z_edges.length := by omega
        have hidx : k0 - 1 + 1 = k0 := by omega
        have hdz2 : 0 < z_edges.getD (k0 - 1) 0 - A := by
          have hlt2 := hdec (k0 - 1) hk1m
          rw [hidx, ← hA] at hlt2
          linarith
        have hM1 : z_edges.getD (k0 - 1) 0 - A ≤ max_dz z_edges := by
          have := dz_le_max_dz z_edges (k0 - 1) hk1m
          rw [hidx, ← hA] at this
          exact this
        exact floor_gap_bound (max_dz z_edges) (A - B) (z_edges.getD (k0 - 1) 0 - A)
          m dr ((A - B) * (1 - lim0)) (d - A) hdz0 hdz2 hM0 hM1 hm0 hm1 hone le_rfl hy0 hyb
    · rw [hraw] at hge
      have hbA : b < A := by
        by_contra hc
        push_neg at hc
        have hnp : rw0 ≤ 0 := div_nonpos_of_nonpos_of_nonneg (by linarith) (le_of_lt hdz0)
        linarith
      have hrlt1 : rw0 < 1 := by
        rw [hrw0, div_lt_one hdz0]
        linarith
      rw [hcol, hraw]
      have hx0 : 0 ≤ (A - B) * (1 - rw0) := mul_nonneg (le_of_lt hdz0) (by linarith)
      have hxb : (A - B) * (1 - rw0) ≤ (A - B) * (1 - lim0) :=
        mul_le_mul_of_nonneg_left (by linarith) (le_of_lt hdz0)
      have hvb : A - (A - B) * (1 - rw0) - d = -((A - B) * (1 - rw0) + (d - A)) := by ring
      rw [hvb, abs_neg, abs_of_nonneg (by linarith)]
      rcases hDd (le_of_lt hbA) hAd with h0 | ⟨hpos, hy0, hyb⟩
      · have hsq : (A - B) * (1 - lim0) ≤ A - B := by nlinarith
        linarith
      · have hk1m : (k0 - 1) + 1 < z_edges.length := by omega
        have hidx : k0 - 1 + 1 = k0 := by omega
        have hdz2 : 0 < z_edges.getD (k0 - 1) 0 - A := by
          have hlt2 := hdec (k0 - 1) hk1m
          rw [hidx, ← hA] at hlt2
          linarith
        have hM1 : z_edges.getD (k0 - 1) 0 - A ≤ max_dz z_edges := by
          have := dz_le_max_dz z_edges (k0 - 1) hk1m
          rw [hidx, ← hA] at this
          exact this
        exact floor_gap_bound (max_dz z_edges) (A - B) (z_edges.getD (k0 - 1) 0 - A)
          m dr ((A - B) * (1 - rw0)) (d - A) hdz0 hdz2 hM0 hM1 hm0 hm1 hx0 hxb hy0 hyb
  · -- both-truncated cell
    have hraw : hfac_cell_raw b d A B = (d - b) / (A - B) := by
      rw [hfac_cell_raw_both b d A B hbB hAd, habs0]
    set rw0 := (d - b) / (A - B) with hrw0
    have hprod : (A - B) * rw0 = d - b := by rw [hrw0]; field_simp
    have hdB : B < d := by linarith
    have hdBlt : d - B < A - B := by linarith
    rcases hcases with ⟨hcol, hge, hlt⟩ | ⟨hcol, hge⟩
    · rw [hraw] at hge hlt
      rw [hcol, abs_le]
      have h1 : (A - B) * (lim0 / 2) ≤ (A - B) * rw0 :=
        mul_le_mul_of_nonneg_left hge (le_of_lt hdz0)
      have h2 : (A - B) * lim0 ≤ (A - B) * 1 :=
        mul_le_mul_of_nonneg_left hl0le (le_of_lt hdz0)
      have h3 : 0 < (A - B) * lim0 := mul_pos hdz0 hl0pos
      constructor
      · linarith [hprod]
      · linarith [hprod]
    · rw [hraw] at hge
      rw [hcol, hraw, show A - (A - B) * (1 - rw0) - d = (A - B) * rw0 - (d - B) from by
          ring, hprod, show d - b - (d - B) = -(b - B) from by ring, abs_neg,
        abs_of_nonneg (by linarith)]
      linarith

theorem draft_col_exact (z_edges : List ℚ) (b d m dr : ℚ) (k0 : ℕ)
    (hdec : ∀ t, t + 1 < z_edges.length → z_edges.getD (t + 1) 0 < z_edges.getD t 0)
    (hdtop : d ≤ z_edges.getD 0 0)
    (hk0 : k0 < z_edges.length - 1)
    (hbe : ∀ k, k < k0 →
      hfac_cell b d (z_edges.getD k 0) (z_edges.getD (k + 1) 0) m dr = 0)
    (hnofloor : ∀ k, k < z_edges.length - 1 →
      hfac_cell b d (z_edges.getD k 0) (z_edges.getD (k + 1) 0) m dr =
        hfac_cell_raw b d (z_edges.getD k 0) (z_edges.getD (k + 1) 0))
    (hnotb : b ≤ z_edges.getD (k0 + 1) 0) :
    z_edges.getD k0 0 - (z_edges.getD k0 0 - z_edges.getD (k0 + 1) 0) *
        (1 - hfac_cell b d (z_edges.getD k0 0) (z_edges.getD (k0 + 1) 0) m dr) = d := by
  set A := z_edges.getD k0 0 with hA
  set B := z_edges.getD (k0 + 1) 0 with hB
  have hk1 : k0 + 1 < z_edges.length := by omega
  have hdz0 : 0 < A - B := sub_pos.mpr (hdec k0 hk1)
  have habs0 : |B - A| = A - B := by rw [abs_of_neg (by linarith)]; ring
  rw [hnofloor k0 hk0]
  rcases le_or_lt A d with hAd | hAd
  · -- fully open cell: its top interface must coincide with the draft
    rw [hfac_cell_raw_full b d A B hnotb hAd]
    have hbA : b ≤ A := by linarith
    have hdA : d = A := by
      rcases Nat.eq_zero_or_pos k0 with h0 | hpos
      · have hA0 : A = z_edges.getD 0 0 := by rw [hA, h0]
        linarith
      · have hk1m : (k0 - 1) + 1 < z_edges.length := by omega
        have hidx : k0 - 1 + 1 = k0 := by omega
        have hdz2 : 0 < z_edges.getD (k0 - 1) 0 - A := by
          have hlt2 := hdec (k0 - 1) hk1m
          rw [hidx, ← hA] at hlt2
          linarith
        have habs2 : |A - z_edges.getD (k0 - 1) 0| = z_edges.getD (k0 - 1) 0 - A := by
          rw [abs_of_neg (by linarith)]; ring
        have hz2 := hbe (k0 - 1) (by omega)
        rw [hnofloor (k0 - 1) (by omega)] at hz2
        rw [hidx, ← hA] at hz2
        rcases le_or_lt (z_edges.getD (k0 - 1) 0) d with hA2d | hA2d
        · rw [hfac_cell_raw_full b d (z_edges.getD (k0 - 1) 0) A hbA hA2d] at hz2
          norm_num at hz2
        · rw [hfac_cell_raw_draft b d (z_edges.getD (k0 - 1) 0) A hbA hA2d, habs2] at hz2
          rcases div_eq_zero_iff.mp hz2 with h | h
          · linarith
          · linarith
    rw [hdA]
    ring
  · -- draft-truncated cell: the scan formula inverts the fraction exactly
    rw [hfac_cell_raw_draft b d A B hnotb hAd, habs0]
    field_simp

/-- Claim C3 (amended): for a horizontally rectangular bathymetry/draft pair at
or below the sea surface and above the deepest interface (bathymetry at or
below draft), on a strictly decreasing interface array, with 0 < hFacMin <= 1,
the boundary fields reconstructed by model_bdry = bdry_from_hfac after
calc_hfac stay within one cell thickness (the largest cell) of the inputs at
every horizontal point whose column has an open cell; equality holds at a
column where the floor modified no cell fraction and the determining cell is
not truncated by the other boundary (its top is at or above the draft for
bathymetry, its bottom at or below the bathymetry for draft); a column with no
open cell is returned as 0 for both options. -/
theorem model_bdry_round_trip (bathy draft : Arr2 ℚ) (z_edges : List ℚ) (m dr : ℚ)
    (ny nx j i : ℕ) (b d : ℚ)
    (hby : bathy.length = ny) (hbx : ∀ r ∈ bathy, r.length = nx)
    (hdy : draft.length = ny) (hdx : ∀ r ∈ draft, r.length = nx)
    (hj : j < ny) (hi : i < nx)
    (hb : (bathy.getD j []).getD i 0 = b) (hd : (draft.getD j []).getD i 0 = d)
    (hlen : 2 ≤ z_edges.length)
    (hdec : ∀ t, t + 1 < z_edges.length → z_edges.getD (t + 1) 0 < z_edges.getD t 0)
    (hm0 : 0 < m) (hm1 : m ≤ 1) (hbd : b ≤ d)
    (hdtop : d ≤ z_edges.getD 0 0)
    (hbbot : z_edges.getD (z_edges.length - 1) 0 ≤ b) :
    (∀ k0, k0 < z_edges.length - 1 →
      hfac_cell b d (z_edges.getD k0 0) (z_edges.getD (k0 + 1) 0) m dr ≠ 0 →
      (∀ k, k0 < k → k < z_edges.length - 1 →
        hfac_cell b d (z_edges.getD k 0) (z_edges.getD (k + 1) 0) m dr = 0) →
      ∃ bd v, model_bdry "bathy" bathy draft z_edges m dr = Except.ok bd ∧
        o2 bd j i = some v ∧ |v - b| ≤ max_dz z_edges ∧
        ((∀ k, k < z_edges.length - 1 →
            hfac_cell b d (z_edges.getD k 0) (z_edges.getD (k + 1) 0) m dr =
              hfac_cell_raw b d (z_edges.getD k 0) (z_edges.getD (k + 1) 0)) →
          z_edges.getD k0 0 ≤ d → v = b)) ∧
    (∀ k0, k0 < z_edges.length - 1 →
      hfac_cell b d (z_edges.getD k0 0) (z_edges.getD (k0 + 1) 0) m dr ≠ 0 →
      (∀ k, k < k0 →
        hfac_cell b d (z_edges.getD k 0) (z_edges.getD (k + 1) 0) m dr = 0) →
      ∃ bd v, model_bdry "draft" bathy draft z_edges m dr = Except.ok bd ∧
        o2 bd j i = some v ∧ |v - d| ≤ max_dz z_edges ∧
        ((∀ k, k < z_edges.length - 1 →
            hfac_cell b d (z_edges.getD k 0) (z_edges.getD (k + 1) 0) m dr =
              hfac_cell_raw b d (z_edges.getD k 0) (z_edges.getD (k + 1) 0)) →
          b ≤ z_edges.getD (k0 + 1) 0 → v = d)) ∧
    ((∀ k, k < z_edges.length - 1 →
        hfac_cell b d (z_edges.getD k 0) (z_edges.getD (k + 1) 0) m dr = 0) →
      ∃ bd bd2, model_bdry "bathy" bathy draft z_edges m dr = Except.ok bd ∧
        model_bdry "draft" bathy draft z_edges m dr = Except.ok bd2 ∧
        o2 bd j i = some 0 ∧ o2 bd2 j i = some 0) := by
  have h0ny : 0 < ny := by omega
  have hjb : j < bathy.length := by rw [hby]; exact hj
  have hjd : j < draft.length := by rw [hdy]; exact hj
  have h0b : 0 < bathy.length := by rw [hby]; exact h0ny
  have h0d : 0 < draft.length := by rw [hdy]; exact h0ny
  have hrowb : ∀ jj, jj < bathy.length → (bathy.getD jj []).length = nx := by
    intro jj hjj
    rw [List.getD_eq_getElem?_getD, List.getElem?_eq_getElem hjj, Option.getD_some]
    exact hbx _ (List.getElem_mem hjj)
  have hrowd : ∀ jj, jj < draft.length → (draft.getD jj []).length = nx := by
    intro jj hjj
    rw [List.getD_eq_getElem?_getD, List.getElem?_eq_getElem hjj, Option.getD_some]
    exact hdx _ (List.getElem_mem hjj)
  have hB : o2 bathy j i = some b := by
    rw [o2_eq_getD bathy j i hjb (by rw [hrowb j hjb]; exact hi), hb]
  have hD : o2 draft j i = some d := by
    rw [o2_eq_getD draft j i hjd (by rw [hrowd j hjd]; exact hi), hd]
  have hB0 : o2 bathy 0 i = some ((bathy.getD 0 []).getD i 0) :=
    o2_eq_getD bathy 0 i h0b (by rw [hrowb 0 h0b]; exact hi)
  have hD0 : o2 draft 0 i = some ((draft.getD 0 []).getD i 0) :=
    o2_eq_getD draft 0 i h0d (by rw [hrowd 0 h0d]; exact hi)
  have hstag1 : (hfac_stagger "t" bathy draft).1 = bathy := rfl
  have hstag2 : (hfac_stagger "t" bathy draft).2 = draft := rfl
  have hnxs : i < ((hfac_stagger "t" bathy draft).1.headD []).length := by
    rw [hstag1]
    have hhead : bathy.headD [] = bathy.getD 0 [] := by
      cases bathy with
      | nil => simp at h0b
      | cons r rs => rfl
    rw [hhead, hrowb 0 h0b]
    exact hi
  have hze : ∀ k, k < z_edges.length - 1 →
      z_edges[k]? = some (z_edges.getD k 0) ∧
      z_edges[k + 1]? = some (z_edges.getD (k + 1) 0) := by
    intro k hk
    have hk1 : k + 1 < z_edges.length := by omega
    have hk2 : k < z_edges.length := by omega
    constructor
    · rw [List.getElem?_eq_getElem hk2, List.getD_eq_getElem?_getD,
        List.getElem?_eq_getElem hk2, Option.getD_some]
    · rw [List.getElem?_eq_getElem hk1, List.getD_eq_getElem?_getD,
        List.getElem?_eq_getElem hk1, Option.getD_some]
  have hmj : ∀ k, k < z_edges.length - 1 →
      o3 (calc_hfac bathy draft z_edges m dr "t") k j i =
        some (hfac_cell b d (z_edges.getD k 0) (z_edges.getD (k + 1) 0) m dr) := by
    intro k hk
    exact o3_calc_hfac bathy draft z_edges m dr "t" k j i b d
      (z_edges.getD k 0) (z_edges.getD (k + 1) 0)
      (by rw [hstag1]; exact hB) (by rw [hstag2]; exact hD)
      (hze k hk).1 (hze k hk).2 hnxs
  have hm00 : o3 (calc_hfac bathy draft z_edges m dr "t") 0 0 i =
      some (hfac_cell ((bathy.getD 0 []).getD i 0) ((draft.getD 0 []).getD i 0)
        (z_edges.getD 0 0) (z_edges.getD (0 + 1) 0) m dr) := by
    have h01 : (0 : ℕ) < z_edges.length - 1 := by omega
    exact o3_calc_hfac bathy draft z_edges m dr "t" 0 0 i _ _ _ _
      (by rw [hstag1]; exact hB0) (by rw [hstag2]; exact hD0)
      (hze 0 h01).1 (hze 0 h01).2 hnxs
  have hL : (calc_hfac bathy draft z_edges m dr "t").length = z_edges.length - 1 :=
    calc_hfac_length bathy draft z_edges m dr "t"
  have hbounds := o3_zero_bounds (calc_hfac bathy draft z_edges m dr "t") j i _ _
    (hmj 0 (by omega)) hm00
  have hz : z_edges.length = (calc_hfac bathy draft z_edges m dr "t").length + 1 := by
    rw [hL]; omega
  have hcolD : ∀ k, k < (calc_hfac bathy draft z_edges m dr "t").length →
      o2 ((calc_hfac bathy draft z_edges m dr "t").getD k []) j i =
        some (hfac_cell b d (z_edges.getD k 0) (z_edges.getD (k + 1) 0) m dr) := by
    intro k hk
    have hk2 := hk
    rw [hL] at hk2
    have h3 := hmj k hk2
    unfold o3 at h3
    rw [List.getElem?_eq_getElem hk, Option.some_bind] at h3
    rw [List.getD_eq_getElem?_getD, List.getElem?_eq_getElem hk, Option.getD_some]
    exact h3
  obtain ⟨hchar1, hchar2, hchar3⟩ := bdry_from_hfac_char
    (calc_hfac bathy draft z_edges m dr "t") z_edges j i
    (fun k => hfac_cell b d (z_edges.getD k 0) (z_edges.getD (k + 1) 0) m dr)
    hbounds.1 hbounds.2 hz hcolD
  refine ⟨?_, ?_, ?_⟩
  · intro k0 hk0 hnzk hab
    obtain ⟨bd, hbd1, hbd2⟩ := hchar1 k0 (by rw [hL]; exact hk0) hnzk
      (fun k h1 h2 => hab k h1 (by rw [hL] at h2; exact h2))
    refine ⟨bd, _, hbd1, hbd2, ?_, ?_⟩
    · exact bathy_col_bound z_edges b d m dr k0 hdec hm0 hm1 hbd hbbot hk0 hnzk hab
    · intro hnofloor hAd
      exact bathy_col_exact z_edges b d m dr k0 hdec hbbot hk0 hab hnofloor hAd
  · intro k0 hk0 hnzk hbe
    obtain ⟨bd, hbd1, hbd2⟩ := hchar2 k0 (by rw [hL]; exact hk0) hnzk hbe
    refine ⟨bd, _, hbd1, hbd2, ?_, ?_⟩
    · exact draft_col_bound z_edges b d m dr k0 hdec hm0 hm1 hbd hdtop hk0 hnzk hbe
    · intro hnofloor hnotb
      exact draft_col_exact z_edges b d m dr k0 hdec hdtop hk0 hbe hnofloor hnotb
  · intro hall
    obtain ⟨bd, bd2, h1, h2, h3, h4⟩ := hchar3
      (fun k hk => hall k (by rw [hL] at hk; exact hk))
    exact ⟨bd, bd2, h1, h2, h3, h4⟩

/-- Claim C3, counterexample: with bathymetry -80, draft -20 and a single cell
spanning the interfaces [0, -100] (hFacMin = 1/10, hFacMinDr = 20), the hFac
floor modifies nothing: the raw open fraction 3/5 is at or above the limit 1/5
and passes through unchanged.  Yet the reconstructed model bathymetry is -60,
not the input -80, so exact round-trip equality fails at a column the floor
never touched: the cell determining the bathymetry is also draft-truncated. -/
theorem model_bdry_not_exact_cex :
    (∃ bd, model_bdry "bathy" [[-80]] [[-20]] [0, -100] (1/10) 20 = Except.ok bd ∧
      o2 bd 0 0 = some (-60)) ∧
    hfac_cell (-80) (-20) 0 (-100) (1/10) 20 = hfac_cell_raw (-80) (-20) 0 (-100) ∧
    ((-60 : ℚ) ≠ (-80 : ℚ)) := by
  have hcell : hfac_cell (-80) (-20) 0 (-100) (1/10) 20 = 3/5 := by
    norm_num [hfac_cell, hfac_cell_raw, hfac_limit]
  have hcellraw : hfac_cell_raw (-80) (-20) 0 (-100) = 3/5 := by
    norm_num [hfac_cell_raw]
  refine ⟨?_, by rw [hcell, hcellraw], by norm_num⟩
  have hmj := o3_calc_hfac [[-80]] [[-20]] [0, -100] (1/10) 20 "t" 0 0 0 (-80) (-20)
    0 (-100) rfl rfl rfl rfl (by decide)
  rw [hcell] at hmj
  have hL : (calc_hfac [[-80]] [[-20]] [0, -100] (1/10) 20 "t").length = 1 :=
    calc_hfac_length [[-80]] [[-20]] [0, -100] (1/10) 20 "t"
  have h01 : 0 < (calc_hfac [[-80]] [[-20]] [0, -100] (1/10) 20 "t").length := by
    rw [hL]; omega
  have hbounds := o3_zero_bounds (calc_hfac [[-80]] [[-20]] [0, -100] (1/10) 20 "t")
    0 0 _ _ hmj hmj
  have hz : ([0, -100] : List ℚ).length =
      (calc_hfac [[-80]] [[-20]] [0, -100] (1/10) 20 "t").length + 1 := by
    rw [hL]
    rfl
  have hcolD : ∀ k, k < (calc_hfac [[-80]] [[-20]] [0, -100] (1/10) 20 "t").length →
      o2 ((calc_hfac [[-80]] [[-20]] [0, -100] (1/10) 20 "t").getD k []) 0 0 =
        some ((fun _ => (3/5 : ℚ)) k) := by
    intro k hk
    have hk0 : k = 0 := by rw [hL] at hk; omega
    subst hk0
    have h3 := hmj
    unfold o3 at h3
    rw [List.getElem?_eq_getElem h01, Option.some_bind] at h3
    rw [List.getD_eq_getElem?_getD, List.getElem?_eq_getElem h01, Option.getD_some]
    exact h3
  obtain ⟨hchar1, hchar2, hchar3⟩ := bdry_from_hfac_char
    (calc_hfac [[-80]] [[-20]] [0, -100] (1/10) 20 "t") [0, -100] 0 0
    (fun _ => (3/5 : ℚ)) hbounds.1 hbounds.2 hz hcolD
  obtain ⟨bd, hok, hval⟩ := hchar1 0 h01 (by norm_num)
    (fun k h1 h2 => absurd h2 (by rw [hL]; omega))
  refine ⟨bd, hok, ?_⟩
  have hval2 : ([0, -100] : List ℚ).getD 0 0 -
      (([0, -100] : List ℚ).getD 0 0 - ([0, -100] : List ℚ).getD (0 + 1) 0) *
        (3/5 : ℚ) = -60 := by
    norm_num [List.getD_cons_zero, List.getD_cons_succ]
  rw [← hval2]
  exact hval

/-- Claim C3, witness for the amended theorem: a one-cell column spanning
[0, -100] with bathymetry -80, draft -20, hFacMin = 1, hFacMinDr = 50. -/
theorem model_bdry_round_trip_witness :
    ∃ bd v, model_bdry "bathy" [[-80]] [[-20]] [0, -100] 1 50 = Except.ok bd ∧
      o2 bd 0 0 = some v ∧ |v - (-80)| ≤ max_dz [0, -100] ∧
      ((∀ k, k < ([0, -100] : List ℚ).length - 1 →
          hfac_cell (-80) (-20) (([0, -100] : List ℚ).getD k 0)
            (([0, -100] : List ℚ).getD (k + 1) 0) 1 50 =
            hfac_cell_raw (-80) (-20) (([0, -100] : List ℚ).getD k 0)
              (([0, -100] : List ℚ).getD (k + 1) 0)) →
        ([0, -100] : List ℚ).getD 0 0 ≤ -20 → v = -80) := by
  refine (model_bdry_round_trip [[-80]] [[-20]] [0, -100] 1 50 1 1 0 0 (-80) (-20)
    rfl ?_ rfl ?_ (by norm_num) (by norm_num) rfl rfl (by norm_num)
    ?_ (by norm_num) (by norm_num) (by norm_num) ?_ ?_).1 0 (by norm_num) ?_ ?_
  · intro r hr
    rw [List.mem_singleton] at hr
    subst hr
    rfl
  · intro r hr
    rw [List.mem_singleton] at hr
    subst hr
    rfl
  · intro t ht
    have ht0 : t = 0 := by
      simp only [List.length_cons, List.length_nil] at ht
      omega
    subst ht0
    norm_num [List.getD_cons_zero, List.getD_cons_succ]
  · norm_num [List.getD_cons_zero]
  · norm_num [List.getD_cons_zero, List.getD_cons_succ]
  · norm_num [List.getD_cons_zero, List.getD_cons_succ, hfac_cell, hfac_cell_raw,
      hfac_limit]
  · intro k h1 h2
    have hlen2 : ([0, -100] : List ℚ).length = 2 := rfl
    rw [hlen2] at h2
    exact absurd h2 (by omega)

/-- Claim C5, counterexample.  The claim states that every element returned by
fix_lon_range lies in the window from max_lon-360 (inclusive) to max_lon
(exclusive).  For the input element 900 with max_lon = 180 the code subtracts
360 exactly once, producing 540, which is not below 180, so the returned
element lies outside the window. -/
theorem fix_lon_range_cex :
    fix_lon_range [900] (some 180) = [540] ∧ ¬ ((540 : ℚ) < 180) := by
  refine ⟨by simp [fix_lon_range]; norm_num, by norm_num⟩

/-- Claim C5, amended: restricted to input elements within one full period of
the window, i.e. in the interval from max_lon-720 (inclusive) to max_lon+360
(exclusive), every element returned by fix_lon_range lies in the half-open
window from max_lon-360 to max_lon, with exactly one of -360, +360 or 0 added
to the corresponding input element; and fix_lon_range is the identity on any
array whose elements already lie in the window. -/
theorem fix_lon_range_amended :
    (∀ (lon : List ℚ) (ml : ℚ) (i : ℕ) (x : ℚ), lon[i]? = some x →
      ml - 720 ≤ x → x < ml + 360 →
      ∃ y, (fix_lon_range lon (some ml))[i]? = some y ∧
        ml - 360 ≤ y ∧ y < ml ∧ (y = x - 360 ∨ y = x + 360 ∨ y = x)) ∧
    (∀ (lon : List ℚ) (ml : ℚ), (∀ x ∈ lon, ml - 360 ≤ x ∧ x < ml) →
      fix_lon_range lon (some ml) = lon) := by
  constructor
  · intro lon ml i x hx h1 h2
    simp only [fix_lon_range]
    rw [List.getElem?_map, List.getElem?_map, hx]
    by_cases hge : x ≥ ml
    · have hlt : ¬ (x - 360 < ml - 360) := by intro h; rw [ge_iff_le] at hge; linarith
      exact ⟨x - 360, by simp [hge, hlt], by linarith, by linarith, Or.inl rfl⟩
    · push_neg at hge
      by_cases hlo : x < ml - 360
      · have : ¬ (x + 360 ≥ ml) := by intro h; linarith
        exact ⟨x + 360, by simp [hge.not_le, hlo, this], by linarith, by linarith,
          Or.inr (Or.inl rfl)⟩
      · push_neg at hlo
        exact ⟨x, by simp [hge.not_le, hlo.not_lt], hlo, hge, Or.inr (Or.inr rfl)⟩
  · intro lon ml h
    simp only [fix_lon_range]
    rw [List.map_map]
    have : ∀ x ∈ lon, ((fun x => if x < ml - 360 then x + 360 else x) ∘
        (fun x => if x ≥ ml then x - 360 else x)) x = x := by
      intro x hx
      obtain ⟨hx1, hx2⟩ := h x hx
      simp [hx2.not_le, hx1.not_lt]
    rw [List.map_congr_left this, List.map_id']

/-- Claim C5, witness for the amended theorem at concrete inputs. -/
theorem fix_lon_range_amended_witness :
    (∃ y, (fix_lon_range [200] (some 180))[0]? = some y ∧
      (180 : ℚ) - 360 ≤ y ∧ y < 180 ∧ (y = 200 - 360 ∨ y = 200 + 360 ∨ y = 200)) ∧
    fix_lon_range [0] (some 180) = [0] :=
  ⟨fix_lon_range_amended.1 [200] 180 0 200 rfl (by norm_num) (by norm_num),
   fix_lon_range_amended.2 [0] 180 (by intro x hx; simp at hx; subst hx; norm_num)⟩

end MitgcmPython
